import Mathlib

/-!
Verification of the CAMFC client core: the Cpen device manager (TOTP and
device-id caching over a Bluetooth session), and the chunked resumable
transfer engine (download.rs / upload.rs).

The Lean definitions below are a shallow embedding of the Rust sources under
src/src-tauri/src.  Machine integers are modelled as `Nat`; the one u64
subtraction that can underflow (`total_size - 1`) is modelled with explicit
wrap-around (`sub64`), matching release-mode semantics (debug builds panic at
the same spot).  Fallible operations return `Except String`, errors carrying
the exact message strings built by the source.  The Bluetooth and HTTP
environments are oracles supplied as function arguments; every externally
visible protocol action is recorded in an event trace.
-/

namespace CAMFC

/-! ## Shared machine arithmetic -/

/-- Wrapping u64 subtraction: release-mode semantics of `a - b` on `u64`. -/
def sub64 (a b : Nat) : Nat := (a + (2 ^ 64 - b % 2 ^ 64)) % 2 ^ 64

/-- Wrapping u64 addition. -/
def add64 (a b : Nat) : Nat := (a + b) % 2 ^ 64

/-- `CHUNK_SIZE` from download.rs / upload.rs: 4 MiB. -/
def CHUNK_SIZE : Nat := 4 * 1024 * 1024

/-- The binary exponent by which an integer must be shifted down so that it
fits in the 53-bit significand of an IEEE-754 double (inputs are u64, so the
shift is at most 11). -/
def f64shift (n : Nat) : Nat :=
  if n < 2 ^ 53 then 0
  else if n < 2 ^ 54 then 1
  else if n < 2 ^ 55 then 2
  else if n < 2 ^ 56 then 3
  else if n < 2 ^ 57 then 4
  else if n < 2 ^ 58 then 5
  else if n < 2 ^ 59 then 6
  else if n < 2 ^ 60 then 7
  else if n < 2 ^ 61 then 8
  else if n < 2 ^ 62 then 9
  else if n < 2 ^ 63 then 10
  else 11

/-- Exact integer model of the Rust cast `n as f64` for `n : u64`:
round-to-nearest, ties to even, at 53 significant bits. -/
def f64ofNat (n : Nat) : Nat :=
  let k := f64shift n
  if k = 0 then n
  else
    let q := n / 2 ^ k
    let r := n % 2 ^ k
    let half := 2 ^ (k - 1)
    if r < half then q * 2 ^ k
    else if half < r then (q + 1) * 2 ^ k
    else if q % 2 = 0 then q * 2 ^ k else (q + 1) * 2 ^ k

/-- Chunk-count computation shared by `DownloadTask::start` and
`UploadTask::new`:
`((total_size as f64) / (CHUNK_SIZE as f64)).ceil() as u32`, with the extra
branch returning 1 when the size is zero/unknown.  The f64 division is by the
power of two 2^22, hence exact; the only rounding happens in the u64→f64 cast
(`f64ofNat`) and in the saturating f64→u32 cast (the `min`). -/
def chunks_count (total_size : Nat) : Nat :=
  if total_size > 0 then
    min (2 ^ 32 - 1) ((f64ofNat total_size + CHUNK_SIZE - 1) / CHUNK_SIZE)
  else 1

/-! ## UTF-8 decoding

Model of Rust `String::from_utf8` (strict UTF-8 validation: shortest-form
encodings only, surrogates rejected, code points at most U+10FFFF). -/

/-- Is `b` a UTF-8 continuation byte (0x80..0xBF)? -/
def utf8_cont (b : Nat) : Bool := 128 ≤ b && b < 192

/-- Decode a byte list as strict UTF-8, as `String::from_utf8` validates it. -/
def utf8_decode : List Nat → Option (List Char)
  | [] => some []
  | b0 :: rest =>
    if b0 < 128 then
      (utf8_decode rest).map (fun cs => Char.ofNat b0 :: cs)
    else if b0 < 194 then none
    else if b0 < 224 then
      match rest with
      | b1 :: rest2 =>
        if utf8_cont b1 then
          (utf8_decode rest2).map (fun cs => Char.ofNat ((b0 - 192) * 64 + (b1 - 128)) :: cs)
        else none
      | [] => none
    else if b0 < 240 then
      match rest with
      | b1 :: b2 :: rest2 =>
        if utf8_cont b1 && utf8_cont b2 then
          let cp := (b0 - 224) * 4096 + (b1 - 128) * 64 + (b2 - 128)
          if cp < 2048 then none
          else if 55296 ≤ cp && cp < 57344 then none
          else (utf8_decode rest2).map (fun cs => Char.ofNat cp :: cs)
        else none
      | _ => none
    else if b0 < 245 then
      match rest with
      | b1 :: b2 :: b3 :: rest2 =>
        if utf8_cont b1 && utf8_cont b2 && utf8_cont b3 then
          let cp := (b0 - 240) * 262144 + (b1 - 128) * 4096 + (b2 - 128) * 64 + (b3 - 128)
          if cp < 65536 then none
          else if 1114111 < cp then none
          else (utf8_decode rest2).map (fun cs => Char.ofNat cp :: cs)
        else none
      | _ => none
    else none

/-- `String::from_utf8` on a byte vector. -/
def string_from_utf8 (bytes : List Nat) : Option String :=
  (utf8_decode bytes).map (fun cs => String.mk cs)

/-- Rust `str::contains` for a literal pattern: some byte-position suffix of
the haystack starts with the needle.  (Both sides here are ASCII-free Chinese
literals compared at scalar-value granularity, which coincides with Rust's
byte-level search for well-formed UTF-8.) -/
def contains_sub (hay needle : String) : Bool :=
  (List.range (hay.data.length + 1)).any fun i => needle.data.isPrefixOf (hay.data.drop i)

/-! ## Cpen device manager (cpen_device_manager.rs) -/

/-- `DeviceInfo` from bluetooth.rs (the `services` vector is never consulted
by the manager logic and is omitted). -/
structure DeviceInfo where
  name : String
  address : String
deriving Repr, DecidableEq

/-- The mutable fields of `CpenDeviceManager`.  The TOTP cache instant is the
capture time in whole seconds (`SystemTime` at second granularity, which is
the granularity at which `should_refresh_totp` and `get_cached_totp` compare
via `Duration::as_secs`). -/
structure CpenState where
  connected_address : Option String
  current_device : Option DeviceInfo
  totp_cache : Option (String × Nat)
  device_id_cache : Option String
  connection_status : String
deriving Repr, DecidableEq

/-- Externally visible Bluetooth protocol actions. -/
inductive BtOp where
  | scanOp : BtOp
  | connectOp (address : String) : BtOp
  | sendOp (payload : String) : BtOp
  | recvOp : BtOp
deriving Repr, DecidableEq, BEq

/-- Oracle for the underlying `BluetoothManager`: the outcome each fallible
Bluetooth operation would produce during one manager call. -/
structure BtEnv where
  enable_bt : Except String Unit
  btleplug_check : Except String Bool
  is_alive : Except String Bool
  scan : Except String (List DeviceInfo)
  connect : String → Except String Unit
  send_set_time : Except String Unit
  recv_echo : Except String (List Nat)
  send_get_totp : Except String Unit
  recv_totp : Except String (List Nat)
  send_get_id : Except String Unit
  recv_id : Except String (List Nat)

/-- `filter_cpen_devices`: keep devices whose name has at least 4 characters
and whose first 4 characters, lowercased, are "cpen". -/
def filter_cpen_devices (devices : List DeviceInfo) : List DeviceInfo :=
  devices.filter fun d =>
    decide (4 ≤ d.name.data.length) && ((d.name.data.take 4).map Char.toLower == "cpen".data)

/-- `should_refresh_totp`: no cache, or the cache is at least 25 seconds old
(`elapsed.as_secs() >= 25`; `duration_since(..).unwrap_or(0)` is truncated
`Nat` subtraction). -/
def should_refresh_totp (s : CpenState) (now : Nat) : Bool :=
  match s.totp_cache with
  | some (_, cache_time) => decide (25 ≤ now - cache_time)
  | none => true

/-- `get_cached_totp`: the cached value while strictly younger than 30 s. -/
def get_cached_totp (s : CpenState) (now : Nat) : Option String :=
  match s.totp_cache with
  | some (totp, cache_time) => if now - cache_time < 30 then some totp else none
  | none => none

/-- Steps 2–8 of `ensure_connected`: mark connecting, scan, filter for Cpen
devices, connect to the first match, record the connection. -/
def ensure_connect_fresh (env : BtEnv) (s : CpenState) :
    Except String Unit × CpenState × List BtOp :=
  let s1 := { s with connection_status := "connecting" }
  match env.scan with
  | .error e => (.error ("扫描设备失败: " ++ e), s1, [.scanOp])
  | .ok devices =>
    match filter_cpen_devices devices with
    | [] => (.error "没有找到Cpen设备（设备名需以\x27Cpen\x27开头）",
             { s1 with connection_status := "disconnected" }, [.scanOp])
    | target :: _ =>
      match env.connect target.address with
      | .error e => (.error ("连接设备失败: " ++ e), s1, [.scanOp, .connectOp target.address])
      | .ok _ =>
        (.ok (), { s1 with connected_address := some target.address,
                           current_device := some target,
                           connection_status := "connected" },
         [.scanOp, .connectOp target.address])

/-- `ensure_connected`: Bluetooth availability check (Windows API, btleplug
fallback), liveness re-verification of a recorded connection, else a fresh
scan/filter/connect cycle. -/
def ensure_connected (env : BtEnv) (s : CpenState) :
    Except String Unit × CpenState × List BtOp :=
  let btCheck : Except String Unit :=
    match env.enable_bt with
    | .ok _ => .ok ()
    | .error e =>
      match env.btleplug_check with
      | .ok _ => .ok ()
      | .error e2 =>
        .error ("蓝牙检测失败，请确保蓝牙已开启并可用。Windows API错误: " ++ e ++
                ", btleplug错误: " ++ e2)
  match btCheck with
  | .error e => (.error e, s, [])
  | .ok _ =>
    match s.connected_address with
    | some _ =>
      match env.is_alive with
      | .ok true => (.ok (), { s with connection_status := "connected" }, [])
      | _ =>
        ensure_connect_fresh env
          { s with connected_address := none, current_device := none,
                   connection_status := "disconnected" }
    | none => ensure_connect_fresh env s

/-- Steps 4–5 of `get_totp`: when an address is recorded, re-verify liveness
and reuse the connection, otherwise (or when the liveness check fails or
reports dead) run `ensure_connected`. -/
def totp_conn (env : BtEnv) (s : CpenState) :
    Except String Unit × CpenState × List BtOp :=
  match s.connected_address with
  | some _ =>
    match env.is_alive with
    | .ok true => (.ok (), { s with connection_status := "connected" }, [])
    | _ => ensure_connected env s
  | none => ensure_connected env s

/-- `get_totp`: refresh-ahead cache check, connection reuse or reconnect,
`setTime:<epoch>` (echo read ignored), `getTotp`, receive, UTF-8 decode,
cache update.  (The source appends the Rust `FromUtf8Error` display to the
UTF-8 error message; the fixed prefix is kept.) -/
def get_totp (env : BtEnv) (epoch : Int) (now : Nat) (s : CpenState) :
    Except String String × CpenState × List BtOp :=
  match if should_refresh_totp s now then none else get_cached_totp s now with
  | some cached => (.ok cached, s, [])
  | none =>
    match totp_conn env s with
    | (.error e, s1, tr) => (.error e, s1, tr)
    | (.ok _, s1, tr) =>
      let cmd := "setTime:" ++ toString epoch
      match env.send_set_time with
      | .error e => (.error ("发送setTime命令失败: " ++ e), s1, tr ++ [.sendOp cmd])
      | .ok _ =>
        let tr1 := tr ++ [.sendOp cmd, .recvOp]
        match env.send_get_totp with
        | .error e => (.error ("发送getTotp命令失败: " ++ e), s1, tr1 ++ [.sendOp "getTotp"])
        | .ok _ =>
          let tr2 := tr1 ++ [.sendOp "getTotp"]
          match env.recv_totp with
          | .error e => (.error ("接收TOTP失败: " ++ e), s1, tr2 ++ [.recvOp])
          | .ok bytes =>
            let tr3 := tr2 ++ [.recvOp]
            match string_from_utf8 bytes with
            | none => (.error "TOTP响应不是有效UTF-8", s1, tr3)
            | some totp => (.ok totp, { s1 with totp_cache := some (totp, now) }, tr3)

/-- `get_device_id`: sticky cache, `ensure_connected`, `getId`, receive,
UTF-8 decode, cache update. -/
def get_device_id (env : BtEnv) (s : CpenState) :
    Except String String × CpenState × List BtOp :=
  match s.device_id_cache with
  | some cached => (.ok cached, s, [])
  | none =>
    match ensure_connected env s with
    | (.error e, s1, tr) => (.error e, s1, tr)
    | (.ok _, s1, tr) =>
      match env.send_get_id with
      | .error e => (.error ("发送getId命令失败: " ++ e), s1, tr ++ [.sendOp "getId"])
      | .ok _ =>
        let tr1 := tr ++ [.sendOp "getId"]
        match env.recv_id with
        | .error e => (.error ("接收设备ID失败: " ++ e), s1, tr1 ++ [.recvOp])
        | .ok bytes =>
          let tr2 := tr1 ++ [.recvOp]
          match string_from_utf8 bytes with
          | none => (.error "设备ID响应不是有效UTF-8", s1, tr2)
          | some did => (.ok did, { s1 with device_id_cache := some did }, tr2)

/-- `CpenDeviceManager::disconnect`: clear both caches, best-effort Bluetooth
disconnect (its result — `bt` — is logged and otherwise ignored), reset the
address, device record and status; always returns `Ok`. -/
def disconnect (bt : Except String Unit) (s : CpenState) :
    Except String Unit × CpenState :=
  let s1 := { s with totp_cache := none, device_id_cache := none }
  let _ := if s1.connected_address.isSome then some bt else none
  (.ok (), { s1 with connected_address := none, current_device := none,
                     connection_status := "disconnected" })

/-- `get_connection_status`: the formatted status string for the front end. -/
def get_connection_status (s : CpenState) : String :=
  match s.connection_status, s.current_device with
  | "connected", some d => "已连接到设备: " ++ d.name ++ " (" ++ d.address ++ ")"
  | "connected", none => "已连接（设备信息未知）"
  | "connecting", _ => "正在连接设备..."
  | "disconnected", _ => "未连接设备"
  | st, _ => "状态: " ++ st

/-! ## Superseded retry helper (bluetooth_manager.rs)

`bluetooth_manager.rs` is an earlier snapshot of the Bluetooth layer that
lib.rs no longer declares as a module; it contains the only
disconnect-detecting retry logic in the repository
(`send_command_with_retry`), embedded here to settle where the reconnect-
retry behaviour actually lives. -/

/-- The substring test `send_command_with_retry` uses to classify an error as
a disconnect condition. -/
def is_connection_error (e : String) : Bool :=
  contains_sub e "连接已断开" || contains_sub e "没有已连接的设备" ||
    contains_sub e "连接在服务发现后断开"

/-- Loop body of `send_command_with_retry`: `attempt k` is what the k-th
`send_command` call returns, `reconnect k` what `try_reconnect` after it
returns; `budget` is `max_retries - retries`. -/
def scwr_loop (attempt : Nat → Except String (List Nat))
    (reconnect : Nat → Except String Unit) : Nat → Nat → Except String (List Nat)
  | k, budget =>
    match attempt k with
    | .ok r => .ok r
    | .error e =>
      if is_connection_error e then
        match budget with
        | 0 => .error e
        | b + 1 =>
          match reconnect k with
          | .ok _ => scwr_loop attempt reconnect (k + 1) b
          | .error _ => .error ("发送命令失败且重连失败: " ++ e)
      else .error e

/-- `send_command_with_retry(command, max_retries)` from the superseded
bluetooth_manager.rs. -/
def send_command_with_retry (attempt : Nat → Except String (List Nat))
    (reconnect : Nat → Except String Unit) (max_retries : Nat) :
    Except String (List Nat) :=
  scwr_loop attempt reconnect 0 max_retries

/-! ## Transfer engine: shared chunk geometry -/

/-- Range end of chunk `i` (identical expression in `DownloadTask::start` and
`UploadTask::start`): `total_size - 1` on u64 for the final chunk, else
`start + CHUNK_SIZE - 1`. -/
def chunk_range_end (S count i : Nat) : Nat :=
  if i = count - 1 then sub64 S 1 else i * CHUNK_SIZE + CHUNK_SIZE - 1

/-- Length in bytes of chunk `i` as the claims measure it
(`range end − range start + 1`). -/
def chunk_len (S count i : Nat) : Nat :=
  chunk_range_end S count i - i * CHUNK_SIZE + 1

/-! ## Download engine (download.rs) -/

/-- `DownloadStatus`. -/
inductive DownloadStatus where
  | Pending : DownloadStatus
  | Downloading : DownloadStatus
  | Paused : DownloadStatus
  | Completed : DownloadStatus
  | Error (msg : String) : DownloadStatus
deriving Repr, DecidableEq, BEq

/-- Outcome of one download attempt of one chunk: the range GET succeeds and
the subsequent `write_chunk` succeeds (`ok data`), the range GET fails
(`fetchFail`), or the GET succeeds but the local write fails (`writeFail`,
which the source also treats as a failed attempt and retries). -/
inductive ChunkAttempt where
  | ok (data : List Nat) : ChunkAttempt
  | fetchFail (e : String) : ChunkAttempt
  | writeFail (e : String) : ChunkAttempt
deriving Repr, DecidableEq

/-- Externally visible download actions: a ranged chunk request, and a write
of `len` bytes at byte offset `offset` of the local file. -/
inductive DlEvent where
  | request (chunk rangeStart rangeEnd : Nat) : DlEvent
  | write (offset len : Nat) : DlEvent
deriving Repr, DecidableEq, BEq

/-- Task state visible to `get_progress` plus the recorded event trace.  The
local file is tracked by its length (chunk payloads are opaque to every
claim about the download path). -/
structure DlRun where
  file_len : Nat
  downloaded : Nat
  status : DownloadStatus
  trace : List DlEvent
deriving Repr, DecidableEq

/-- The inner `for retry_count in 0..3` loop of `DownloadTask::start` for one
chunk: `att1 k` is the outcome of attempt `k`; each attempt issues one ranged
request; `last_error` after the loop is the error of the final attempt. -/
def dl_attempts (att1 : Nat → ChunkAttempt) (i rs re : Nat) :
    Nat → Nat → List DlEvent × Except String (List Nat)
  | _, 0 => ([], .error "")
  | k, n + 1 =>
    match att1 k with
    | .ok data => ([.request i rs re], .ok data)
    | .fetchFail e =>
      match n with
      | 0 => ([.request i rs re], .error e)
      | m + 1 =>
        let rest := dl_attempts att1 i rs re (k + 1) (m + 1)
        (.request i rs re :: rest.1, rest.2)
    | .writeFail e =>
      match n with
      | 0 => ([.request i rs re], .error e)
      | m + 1 =>
        let rest := dl_attempts att1 i rs re (k + 1) (m + 1)
        (.request i rs re :: rest.1, rest.2)

/-- Body of the per-chunk iteration of `DownloadTask::start` after the pause
check: compute the range, run up to 3 attempts, on success write at the exact
offset and add the actual size to the progress counter, on exhausted retries
set the chunk-index-tagged error status and fail the task. -/
def dl_process_chunk (S count : Nat) (att : Nat → Nat → ChunkAttempt) (i : Nat)
    (r : DlRun) : Except String Unit × DlRun :=
  let rs := i * CHUNK_SIZE
  let re := chunk_range_end S count i
  let res := dl_attempts (att i) i rs re 0 3
  match res.2 with
  | .ok data =>
    (.ok (), { r with
        file_len := max (rs + data.length) r.file_len,
        downloaded := r.downloaded + data.length,
        trace := r.trace ++ res.1 ++ [.write rs data.length] })
  | .error e =>
    let msg := "分片 " ++ toString i ++ " 下载失败: " ++ e
    (.error msg, { r with status := .Error msg, trace := r.trace ++ res.1 })

/-- How the chunk loop of `start` ended: it ran off the end of the chunk
range, or it observed a `Paused`/`Error` status at the top of an iteration
and returned `Ok` early (skipping verification). -/
inductive LoopExit where
  | finished : LoopExit
  | interrupted : LoopExit
deriving Repr, DecidableEq

/-- The `Paused`/`Error` short-circuit arms of the status match at the top of
each chunk iteration of `DownloadTask::start`. -/
def dl_stop (st : DownloadStatus) : Bool :=
  match st with
  | .Paused => true
  | .Error _ => true
  | _ => false

/-- The chunk loop of `DownloadTask::start`.  `pausedAt i` models the status
read at the top of the iteration for chunk `i` observing a concurrently set
`Paused` (the in-run status only ever shows `Downloading` or `Error`); the
check happens only between chunks, never mid-chunk. -/
def dl_loop (S count : Nat) (att : Nat → Nat → ChunkAttempt) (pausedAt : Nat → Bool) :
    List Nat → DlRun → Except String LoopExit × DlRun
  | [], r => (.ok .finished, r)
  | i :: rest, r =>
    if dl_stop r.status then (.ok .interrupted, r)
    else if pausedAt i then (.ok .interrupted, r)
    else
      match dl_process_chunk S count att i r with
      | (.ok _, r1) => dl_loop S count att pausedAt rest r1
      | (.error e, r1) => (.error e, r1)

/-- `DownloadTask::start`: set `Downloading`, compute the chunk count, resume
from the byte length of an existing destination file (`existingLen`), run the
chunk loop, then verify the final file length against the expected total
(the SHA-256 hash that follows is local logging only). -/
def download_start (S : Nat) (existingLen : Option Nat)
    (att : Nat → Nat → ChunkAttempt) (pausedAt : Nat → Bool) :
    Except String Unit × DlRun :=
  let count := chunks_count S
  let startingChunk :=
    match existingLen with
    | some L => L / CHUNK_SIZE % 2 ^ 32
    | none => 0
  let r0 : DlRun :=
    { file_len := existingLen.getD 0, downloaded := existingLen.getD 0,
      status := .Downloading, trace := [] }
  match dl_loop S count att pausedAt (List.range' startingChunk (count - startingChunk)) r0 with
  | (.error e, r) => (.error e, r)
  | (.ok .interrupted, r) => (.ok (), r)
  | (.ok .finished, r) =>
    if r.file_len ≠ S then
      let msg := "文件大小不匹配: 期望 " ++ toString S ++ " 字节，实际 " ++
        toString r.file_len ++ " 字节"
      (.error msg, { r with status := .Error msg })
    else
      (.ok (), { r with status := .Completed })

/-- Number of ranged requests for chunk `i` in a download trace. -/
def reqCount (tr : List DlEvent) (i : Nat) : Nat :=
  tr.countP fun ev =>
    match ev with
    | .request j _ _ => j == i
    | _ => false

/-! ## Upload engine (upload.rs) -/

/-- `UploadStatus`. -/
inductive UploadStatus where
  | Pending : UploadStatus
  | Uploading : UploadStatus
  | Paused : UploadStatus
  | Completed : UploadStatus
  | Error (msg : String) : UploadStatus
deriving Repr, DecidableEq, BEq

/-- Outcome of one `upload_chunk` POST attempt. -/
inductive UlAttempt where
  | ok : UlAttempt
  | fail (e : String) : UlAttempt
deriving Repr, DecidableEq

/-- Externally visible upload actions: the initial `/upload/status` query, a
multipart chunk POST tagged with the session id and chunk index, and the
`/upload/finish` call. -/
inductive UlEvent where
  | statusQuery : UlEvent
  | post (upload_id : String) (chunk : Nat) (data : List Nat) : UlEvent
  | finish (upload_id filename : String) (total_chunks : Nat) (target : Option String) : UlEvent
deriving Repr, DecidableEq, BEq

/-- Upload task state plus the recorded event trace. -/
structure UlRun where
  uploaded_size : Nat
  status : UploadStatus
  trace : List UlEvent
deriving Repr, DecidableEq

/-- Byte size of chunk `i` as `UploadTask::start` computes it on u64:
`(end - start + 1)` (wraps to 0 for a zero-byte file, where `end` itself has
wrapped to 2^64 − 1). -/
def ul_chunk_size (S total i : Nat) : Nat :=
  add64 (sub64 (chunk_range_end S total i) (i * CHUNK_SIZE)) 1

/-- Initial progress counter: sum of the chunk sizes the remote status query
reports as already uploaded. -/
def already_uploaded_init (S total : Nat) (uploaded : List Nat) : Nat :=
  uploaded.foldl (fun acc i => acc + ul_chunk_size S total i) 0

/-- The inner `for retry_count in 0..3` loop of `UploadTask::start` for one
chunk: each attempt issues one multipart POST. -/
def ul_attempts (att1 : Nat → UlAttempt) (uid : String) (i : Nat) (data : List Nat) :
    Nat → Nat → List UlEvent × Except String Unit
  | _, 0 => ([], .error "")
  | k, n + 1 =>
    match att1 k with
    | .ok => ([.post uid i data], .ok ())
    | .fail e =>
      match n with
      | 0 => ([.post uid i data], .error e)
      | m + 1 =>
        let rest := ul_attempts att1 uid i data (k + 1) (m + 1)
        (.post uid i data :: rest.1, rest.2)

/-- Body of the per-chunk iteration of `UploadTask::start` after the skip and
pause checks: compute the range, `seek` + `read_exact` the chunk's bytes from
the local file, POST with up to 3 attempts, update progress or set the
chunk-index-tagged error status. -/
def ul_process_chunk (S total : Nat) (uid : String) (content : List Nat)
    (att : Nat → Nat → UlAttempt) (i : Nat) (r : UlRun) : Except String Unit × UlRun :=
  let rs := i * CHUNK_SIZE
  let csize := ul_chunk_size S total i
  if content.length < rs + csize then
    (.error "读取分片数据失败", r)
  else
    let data := (content.drop rs).take csize
    let res := ul_attempts (att i) uid i data 0 3
    match res.2 with
    | .ok _ =>
      (.ok (), { r with uploaded_size := r.uploaded_size + csize,
                        trace := r.trace ++ res.1 })
    | .error e =>
      let msg := "分片 " ++ toString i ++ " 上传失败: " ++ e
      (.error msg, { r with status := .Error msg, trace := r.trace ++ res.1 })

/-- The `Paused`/`Error` short-circuit arms of the status match inside the
chunk loop of `UploadTask::start`. -/
def ul_stop (st : UploadStatus) : Bool :=
  match st with
  | .Paused => true
  | .Error _ => true
  | _ => false

/-- The chunk loop of `UploadTask::start`: skip chunks the remote already
holds, then (only between chunks) observe a pause, else transfer the chunk. -/
def ul_loop (S total : Nat) (uid : String) (content : List Nat) (uploaded : List Nat)
    (att : Nat → Nat → UlAttempt) (pausedAt : Nat → Bool) :
    List Nat → UlRun → Except String LoopExit × UlRun
  | [], r => (.ok .finished, r)
  | i :: rest, r =>
    if uploaded.contains i then ul_loop S total uid content uploaded att pausedAt rest r
    else if ul_stop r.status then (.ok .interrupted, r)
    else if pausedAt i then (.ok .interrupted, r)
    else
      match ul_process_chunk S total uid content att i r with
      | (.ok _, r1) => ul_loop S total uid content uploaded att pausedAt rest r1
      | (.error e, r1) => (.error e, r1)

/-- `UploadTask::start`: set `Uploading`, query the remote accepted-chunk set
(`uploaded`; a failed query is treated as the empty set by the source), run
the chunk loop over every chunk index, and on completion call
`/upload/finish` with the session id, filename, total chunk count and
optional target path. -/
def upload_start (S : Nat) (uid filename : String) (target : Option String)
    (uploaded : List Nat) (content : List Nat) (att : Nat → Nat → UlAttempt)
    (pausedAt : Nat → Bool) (finish_res : Except String String) :
    Except String Unit × UlRun :=
  let total := chunks_count S
  let r0 : UlRun :=
    { uploaded_size := already_uploaded_init S total uploaded,
      status := .Uploading, trace := [.statusQuery] }
  match ul_loop S total uid content uploaded att pausedAt (List.range total) r0 with
  | (.error e, r) => (.error e, r)
  | (.ok .interrupted, r) => (.ok (), r)
  | (.ok .finished, r) =>
    let r1 := { r with trace := r.trace ++ [UlEvent.finish uid filename total target] }
    match finish_res with
    | .ok _ => (.ok (), { r1 with status := .Completed })
    | .error e =>
      let msg := "[start] 完成上传失败: " ++ e
      (.error msg, { r1 with status := .Error msg })

/-- Number of chunk POSTs for chunk `i` in an upload trace. -/
def postCount (tr : List UlEvent) (i : Nat) : Nat :=
  tr.countP fun ev =>
    match ev with
    | .post _ j _ => j == i
    | _ => false

/-- Number of `/upload/finish` calls in an upload trace. -/
def finishCount (tr : List UlEvent) : Nat :=
  tr.countP fun ev =>
    match ev with
    | UlEvent.finish _ _ _ _ => true
    | _ => false

/-! ## Environment-success predicates and concrete sample instances -/

def conn_env_ok (env : BtEnv) : Prop :=
  env.enable_bt = .ok () ∧
  ∃ devs d rest, env.scan = .ok devs ∧ filter_cpen_devices devs = d :: rest ∧
    env.connect d.address = .ok ()

def totp_env_ok (env : BtEnv) (t : String) : Prop :=
  conn_env_ok env ∧ env.is_alive = .ok true ∧ env.send_set_time = .ok () ∧
  env.send_get_totp = .ok () ∧ ∃ bs, env.recv_totp = .ok bs ∧ string_from_utf8 bs = some t

def id_env_ok (env : BtEnv) (u : String) : Prop :=
  conn_env_ok env ∧ env.send_get_id = .ok () ∧
  ∃ bs, env.recv_id = .ok bs ∧ string_from_utf8 bs = some u

def sampleCpen : DeviceInfo := { name := "CpenX1", address := "AA:BB:CC" }

def sampleOther : DeviceInfo := { name := "other", address := "11:22" }

def envAllOk : BtEnv :=
  { enable_bt := .ok ()
    btleplug_check := .ok true
    is_alive := .ok true
    scan := .ok [sampleOther, sampleCpen]
    connect := fun _ => .ok ()
    send_set_time := .ok ()
    recv_echo := .ok []
    send_get_totp := .ok ()
    recv_totp := .ok [49, 50, 51, 52, 53, 54]
    send_get_id := .ok ()
    recv_id := .ok [100, 101, 118, 49] }

def stFresh : CpenState :=
  { connected_address := none, current_device := none, totp_cache := none,
    device_id_cache := none, connection_status := "disconnected" }

def stLinked : CpenState := { stFresh with connected_address := some "AA:BB:CC" }

def envTotpDrop : BtEnv := { envAllOk with send_get_totp := .error "连接已断开" }

def sampleAttempt : Nat → Except String (List Nat) :=
  fun k => if k = 0 then .error "连接已断开" else .ok [49, 50]


/-! ## Concrete attempt oracles and pause schedules for witnesses -/

/-- Every chunk fetch succeeds immediately with an empty body. -/
def attOkEmpty : Nat → Nat → ChunkAttempt := fun _ _ => .ok []

/-- Every chunk POST succeeds immediately. -/
def attUlOk : Nat → Nat → UlAttempt := fun _ _ => .ok

/-- The pause flag is never raised. -/
def noPause : Nat → Bool := fun _ => false

/-- The pause flag is raised before every chunk. -/
def allPause : Nat → Bool := fun _ => true

/-- Sample chunk payloads for a 5-byte file split into one chunk. -/
def dDl : Nat → List Nat := fun j => List.replicate (chunk_len 5 1 j) 0

/-- Chunk 0 fails its first two fetch attempts and succeeds on the third. -/
def attDlRetry : Nat → Nat → ChunkAttempt :=
  fun j k => if j = 0 ∧ k < 2 then .fetchFail "x" else .ok (dDl j)

/-- Chunk 0 fails every fetch attempt. -/
def attDlFail : Nat → Nat → ChunkAttempt :=
  fun j _ => if j = 0 then .fetchFail "x" else .ok (dDl j)

/-- Chunk 0 fails its first two POST attempts and succeeds on the third. -/
def attUlRetry : Nat → Nat → UlAttempt :=
  fun j k => if j = 0 ∧ k < 2 then .fail "x" else .ok

/-- Chunk 0 fails every POST attempt. -/
def attUlFail : Nat → Nat → UlAttempt :=
  fun j _ => if j = 0 then .fail "x" else .ok

/-- A concrete 5-byte file content. -/
def contentW : List Nat := [0, 0, 0, 0, 0]

/-! ## Theorems -/

theorem sub64_of_le (a b : Nat) (hb : b ≤ a) (ha : a < 2 ^ 64) (hb64 : b < 2 ^ 64) :
    sub64 a b = a - b := by
  unfold sub64
  rw [Nat.mod_eq_of_lt hb64]
  rw [show a + (2 ^ 64 - b) = (a - b) + 2 ^ 64 by omega]
  rw [Nat.add_mod_right, Nat.mod_eq_of_lt (by omega)]

theorem f64shift_eq_zero (n : Nat) (h1 : n < 2 ^ 53) : f64shift n = 0 := by
  unfold f64shift
  rw [if_pos h1]

theorem f64ofNat_eq_self (n : Nat) (h : n ≤ 2 ^ 53) : f64ofNat n = n := by
  rcases Nat.lt_or_ge n (2 ^ 53) with h1 | h1
  · simp only [f64ofNat, f64shift_eq_zero n h1, reduceIte]
  · have h2 : n = 2 ^ 53 := le_antisymm h h1
    subst h2
    decide

theorem chunks_count_eq_ceil (S : Nat) (h1 : 0 < S) (h2 : S ≤ 2 ^ 53) :
    chunks_count S = (S + CHUNK_SIZE - 1) / CHUNK_SIZE := by
  unfold chunks_count
  rw [if_pos h1, f64ofNat_eq_self S h2]
  refine Nat.min_eq_right ?_
  have hle : (S + CHUNK_SIZE - 1) / CHUNK_SIZE ≤ (2 ^ 53 + CHUNK_SIZE - 1) / CHUNK_SIZE :=
    Nat.div_le_div_right (by omega)
  have : (2 ^ 53 + CHUNK_SIZE - 1) / CHUNK_SIZE = 2 ^ 31 := by decide
  omega

theorem ceil_chunks_bounds (S : Nat) (h1 : 0 < S) :
    ((S + CHUNK_SIZE - 1) / CHUNK_SIZE - 1) * CHUNK_SIZE < S ∧
    S ≤ (S + CHUNK_SIZE - 1) / CHUNK_SIZE * CHUNK_SIZE ∧
    0 < (S + CHUNK_SIZE - 1) / CHUNK_SIZE := by
  have hC : CHUNK_SIZE = 4194304 := rfl
  rw [hC]
  have hrw : S + 4194304 - 1 = (S - 1) + 4194304 := by omega
  rw [hrw, Nat.add_div_right _ (by norm_num)]
  have hd1 := Nat.div_add_mod (S - 1) 4194304
  have hd2 := Nat.mod_lt (S - 1) (show 0 < 4194304 by norm_num)
  refine ⟨?_, ?_, ?_⟩ <;> omega

theorem chunk_range_end_nonfinal (S count i : Nat) (h : i + 1 < count) :
    chunk_range_end S count i = i * CHUNK_SIZE + CHUNK_SIZE - 1 := by
  unfold chunk_range_end
  rw [if_neg (by omega)]

theorem chunk_range_end_final (S count : Nat) (h1 : 0 < S) (h64 : S < 2 ^ 64) :
    chunk_range_end S count (count - 1) = S - 1 := by
  unfold chunk_range_end
  rw [if_pos rfl, sub64_of_le S 1 h1 h64 (by norm_num)]

theorem chunk_len_nonfinal (S count i : Nat) (h : i + 1 < count) :
    chunk_len S count i = CHUNK_SIZE := by
  unfold chunk_len
  rw [chunk_range_end_nonfinal S count i h]
  have : CHUNK_SIZE = 4194304 := rfl
  omega

theorem chunk_len_final (S : Nat) (h1 : 0 < S) (h2 : S ≤ 2 ^ 53) :
    chunk_len S ((S + CHUNK_SIZE - 1) / CHUNK_SIZE) ((S + CHUNK_SIZE - 1) / CHUNK_SIZE - 1) =
      S - ((S + CHUNK_SIZE - 1) / CHUNK_SIZE - 1) * CHUNK_SIZE := by
  obtain ⟨hb1, hb2, hb3⟩ := ceil_chunks_bounds S h1
  unfold chunk_len
  have h64 : S < 2 ^ 64 := by
    have hp : (2:Nat) ^ 53 < 2 ^ 64 := by norm_num
    omega
  rw [chunk_range_end_final S _ h1 h64]
  omega

example : string_from_utf8 [49, 50, 51, 52, 53, 54] = some "123456" := by decide
example : string_from_utf8 [255] = none := by decide
example : contains_sub "发送命令失败: 连接已断开" "连接已断开" = true := by decide

/-- ensure_connect_fresh never touches either cache. -/
theorem ensure_fresh_caches (env : BtEnv) (s : CpenState) :
    (ensure_connect_fresh env s).2.1.totp_cache = s.totp_cache ∧
    (ensure_connect_fresh env s).2.1.device_id_cache = s.device_id_cache := by
  unfold ensure_connect_fresh
  cases h : env.scan with
  | error e => simp
  | ok devices =>
    cases hf : filter_cpen_devices devices with
    | nil => simp [hf]
    | cons d rest =>
      cases hc : env.connect d.address <;> simp [hf, hc]

/-- ensure_connected never touches either cache. -/
theorem ensure_caches (env : BtEnv) (s : CpenState) :
    (ensure_connected env s).2.1.totp_cache = s.totp_cache ∧
    (ensure_connected env s).2.1.device_id_cache = s.device_id_cache := by
  unfold ensure_connected
  cases h1 : env.enable_bt with
  | error e =>
    cases h2 : env.btleplug_check with
    | error e2 => simp
    | ok b =>
      cases h3 : s.connected_address with
      | none => simpa using ensure_fresh_caches env s
      | some a =>
        cases h4 : env.is_alive with
        | error e3 => simpa using ensure_fresh_caches env _
        | ok alive =>
          cases alive
          · simpa using ensure_fresh_caches env _
          · simp
  | ok u =>
    cases h3 : s.connected_address with
    | none => simpa using ensure_fresh_caches env s
    | some a =>
      cases h4 : env.is_alive with
      | error e3 => simpa using ensure_fresh_caches env _
      | ok alive =>
        cases alive
        · simpa using ensure_fresh_caches env _
        · simp

/-- totp_conn never touches the TOTP cache. -/
theorem totp_conn_cache (env : BtEnv) (s : CpenState) :
    (totp_conn env s).2.1.totp_cache = s.totp_cache := by
  unfold totp_conn
  cases h3 : s.connected_address with
  | none => exact (ensure_caches env s).1
  | some a =>
    cases h4 : env.is_alive with
    | error e3 => exact (ensure_caches env s).1
    | ok alive =>
      cases alive
      · exact (ensure_caches env s).1
      · rfl

/-- Shape of get_totp wrt the cache. -/
theorem get_totp_cache_shape (env : BtEnv) (epoch : Int) (now : Nat) (s : CpenState) :
    (get_totp env epoch now s).2.1.totp_cache = s.totp_cache ∨
    ∃ t, (get_totp env epoch now s).1 = .ok t ∧
         (get_totp env epoch now s).2.1.totp_cache = some (t, now) := by
  unfold get_totp
  cases hm : (if should_refresh_totp s now then none else get_cached_totp s now) with
  | some cached => exact Or.inl rfl
  | none =>
    rcases hc : totp_conn env s with ⟨res, s1, tr⟩
    have hs1 : s1.totp_cache = s.totp_cache := by
      have := totp_conn_cache env s
      rw [hc] at this
      exact this
    cases res with
    | error e => simpa using hs1
    | ok u =>
      cases h5 : env.send_set_time with
      | error e => simpa using hs1
      | ok u2 =>
        cases h6 : env.send_get_totp with
        | error e => simpa using hs1
        | ok u3 =>
          cases h7 : env.recv_totp with
          | error e => simpa using hs1
          | ok bytes =>
            cases h8 : string_from_utf8 bytes with
            | none => simp only [h8]; simpa using hs1
            | some totp =>
              simp only [h8]
              right
              exact ⟨totp, by simp, by simp⟩

/-! environment-success predicates -/

theorem ensure_fresh_ok (env : BtEnv) (s : CpenState)
    (devs : List DeviceInfo) (d : DeviceInfo) (rest : List DeviceInfo)
    (hscan : env.scan = .ok devs) (hfil : filter_cpen_devices devs = d :: rest)
    (hconn : env.connect d.address = .ok ()) :
    ensure_connect_fresh env s =
      (.ok (), { s with connected_address := some d.address, current_device := some d,
                        connection_status := "connected" }, [.scanOp, .connectOp d.address]) := by
  unfold ensure_connect_fresh
  simp only [hscan, hfil, hconn]

theorem ensure_connected_none (env : BtEnv) (s : CpenState)
    (devs : List DeviceInfo) (d : DeviceInfo) (rest : List DeviceInfo)
    (hnone : s.connected_address = none) (hen : env.enable_bt = .ok ())
    (hscan : env.scan = .ok devs) (hfil : filter_cpen_devices devs = d :: rest)
    (hconn : env.connect d.address = .ok ()) :
    ensure_connected env s =
      (.ok (), { s with connected_address := some d.address, current_device := some d,
                        connection_status := "connected" }, [.scanOp, .connectOp d.address]) := by
  unfold ensure_connected
  simp only [hen, hnone]
  exact ensure_fresh_ok env s devs d rest hscan hfil hconn

theorem totp_conn_some_alive (env : BtEnv) (s : CpenState) (a : String)
    (ha : s.connected_address = some a) (halive : env.is_alive = .ok true) :
    totp_conn env s = (.ok (), { s with connection_status := "connected" }, []) := by
  unfold totp_conn
  simp only [ha, halive]

theorem totp_conn_none (env : BtEnv) (s : CpenState) (hnone : s.connected_address = none) :
    totp_conn env s = ensure_connected env s := by
  unfold totp_conn
  simp only [hnone]

theorem totp_conn_ok (env : BtEnv) (s : CpenState)
    (hc : conn_env_ok env) (halive : env.is_alive = .ok true) :
    ∃ s1 tr, totp_conn env s = (.ok (), s1, tr) := by
  obtain ⟨hen, devs, d, rest, hscan, hfil, hconn⟩ := hc
  cases ha : s.connected_address with
  | some a => exact ⟨_, _, totp_conn_some_alive env s a ha halive⟩
  | none =>
    rw [totp_conn_none env s ha,
        ensure_connected_none env s devs d rest ha hen hscan hfil hconn]
    exact ⟨_, _, rfl⟩

/-- C1 -/
theorem totp_refresh_ahead (env : BtEnv) (epoch : Int) (now : Nat) (s : CpenState) (t : String)
    (henv : totp_env_ok env t) :
    (∀ v T, s.totp_cache = some (v, T) → now - T < 25 →
        get_totp env epoch now s = (.ok v, s, [])) ∧
    (should_refresh_totp s now = true →
        (get_totp env epoch now s).1 = .ok t ∧
        (get_totp env epoch now s).2.1.totp_cache = some (t, now) ∧
        .sendOp "getTotp" ∈ (get_totp env epoch now s).2.2) := by
  obtain ⟨hc, halive, hst, hgt, bs, hrecv, hdec⟩ := henv
  constructor
  · intro v T hcache ht
    have h1 : should_refresh_totp s now = false := by
      unfold should_refresh_totp
      rw [hcache]
      simp only [decide_eq_false_iff_not]
      omega
    have h2 : get_cached_totp s now = some v := by
      simp only [get_cached_totp, hcache]
      rw [if_pos (show now - T < 30 by omega)]
    unfold get_totp
    simp [h1, h2]
  · intro hrefresh
    obtain ⟨s1, tr, hconn⟩ := totp_conn_ok env s hc halive
    unfold get_totp
    simp [hrefresh, hconn, hst, hgt, hrecv, hdec]

/-- C9 -/
theorem totp_cache_atomic (env : BtEnv) (epoch : Int) (now : Nat) (s : CpenState) :
    (∀ e, (get_totp env epoch now s).1 = .error e →
        (get_totp env epoch now s).2.1.totp_cache = s.totp_cache) ∧
    ((get_totp env epoch now s).2.1.totp_cache ≠ s.totp_cache →
      ∃ t, (get_totp env epoch now s).1 = .ok t ∧
           (get_totp env epoch now s).2.1.totp_cache = some (t, now)) := by
  rcases get_totp_cache_shape env epoch now s with h | ⟨t, h1, h2⟩
  · exact ⟨fun _ _ => h, fun hne => absurd h hne⟩
  · refine ⟨fun e he => ?_, fun _ => ⟨t, h1, h2⟩⟩
    rw [h1] at he
    exact absurd he (by simp)

/-- C5 -/
theorem disconnect_clears (s : CpenState) (bt : Except String Unit) (env : BtEnv)
    (epoch : Int) (now : Nat) (t u : String)
    (ht : totp_env_ok env t) (hu : id_env_ok env u) :
    (disconnect bt s).1 = .ok () ∧
    (disconnect bt s).2.totp_cache = none ∧
    (disconnect bt s).2.device_id_cache = none ∧
    (disconnect bt s).2.connected_address = none ∧
    (disconnect bt s).2.current_device = none ∧
    (disconnect bt s).2.connection_status = "disconnected" ∧
    get_connection_status (disconnect bt s).2 = "未连接设备" ∧
    (.scanOp ∈ (get_totp env epoch now (disconnect bt s).2).2.2 ∧
     (∀ devs d rest, env.scan = .ok devs → filter_cpen_devices devs = d :: rest →
        .connectOp d.address ∈ (get_totp env epoch now (disconnect bt s).2).2.2) ∧
     (get_totp env epoch now (disconnect bt s).2).1 = .ok t) ∧
    (.scanOp ∈ (get_device_id env (disconnect bt s).2).2.2 ∧
     (∀ devs d rest, env.scan = .ok devs → filter_cpen_devices devs = d :: rest →
        .connectOp d.address ∈ (get_device_id env (disconnect bt s).2).2.2) ∧
     (get_device_id env (disconnect bt s).2).1 = .ok u) := by
  obtain ⟨⟨hen, devs0, d0, rest0, hscan0, hfil0, hconn0⟩, halive, hst, hgt, bs, hrecv, hdec⟩ := ht
  obtain ⟨_, hgid, bs2, hrecv2, hdec2⟩ := hu
  set s2 := (disconnect bt s).2 with hs2
  have hfields : s2.totp_cache = none ∧ s2.device_id_cache = none ∧
      s2.connected_address = none ∧ s2.current_device = none ∧
      s2.connection_status = "disconnected" := by
    rw [hs2]; unfold disconnect; exact ⟨rfl, rfl, rfl, rfl, rfl⟩
  obtain ⟨hf1, hf2, hf3, hf4, hf5⟩ := hfields
  have hcs : get_connection_status s2 = "未连接设备" := by
    unfold get_connection_status
    rw [hf5]
    rfl
  have hens : ensure_connected env s2 =
      (.ok (), { s2 with connected_address := some d0.address, current_device := some d0,
                         connection_status := "connected" }, [.scanOp, .connectOp d0.address]) :=
    ensure_connected_none env s2 devs0 d0 rest0 hf3 hen hscan0 hfil0 hconn0
  have hrefresh : should_refresh_totp s2 now = true := by
    unfold should_refresh_totp
    rw [hf1]
  have htr : (get_totp env epoch now s2).1 = .ok t ∧
      (get_totp env epoch now s2).2.2 =
        [.scanOp, .connectOp d0.address] ++ [.sendOp ("setTime:" ++ toString epoch), .recvOp] ++
          [.sendOp "getTotp"] ++ [.recvOp] := by
    unfold get_totp
    rw [totp_conn_none env s2 hf3, hens]
    simp [hrefresh, hst, hgt, hrecv, hdec]
  have hid : (get_device_id env s2).1 = .ok u ∧
      (get_device_id env s2).2.2 =
        [.scanOp, .connectOp d0.address] ++ [.sendOp "getId"] ++ [.recvOp] := by
    unfold get_device_id
    rw [hf2, hens]
    simp [hgid, hrecv2, hdec2]
  refine ⟨rfl, hf1, hf2, hf3, hf4, hf5, hcs, ⟨?_, ?_, htr.1⟩, ⟨?_, ?_, hid.1⟩⟩
  · rw [htr.2]; simp
  · intro devs d rest hscan hfil
    rw [hscan0] at hscan
    have hdevs : devs = devs0 := by
      cases hscan; rfl
    subst hdevs
    rw [hfil0] at hfil
    have hd : d = d0 := by
      cases hfil; rfl
    subst hd
    rw [htr.2]; simp
  · rw [hid.2]; simp
  · intro devs d rest hscan hfil
    rw [hscan0] at hscan
    have hdevs : devs = devs0 := by
      cases hscan; rfl
    subst hdevs
    rw [hfil0] at hfil
    have hd : d = d0 := by
      cases hfil; rfl
    subst hd
    rw [hid.2]; simp

/-! C3 material -/

theorem scwr_retry_delivers (attempt : Nat → Except String (List Nat))
    (reconnect : Nat → Except String Unit) (e : String) (v : List Nat) (b : Nat)
    (h0 : attempt 0 = .error e) (hce : is_connection_error e = true)
    (hr : reconnect 0 = .ok ()) (h1 : attempt 1 = .ok v) :
    send_command_with_retry attempt reconnect (b + 1) = .ok v := by
  unfold send_command_with_retry
  unfold scwr_loop
  simp only [h0, hce, if_true, hr]
  unfold scwr_loop
  simp only [h1]

theorem scwr_nonconn_propagates (attempt : Nat → Except String (List Nat))
    (reconnect : Nat → Except String Unit) (e : String) (m : Nat)
    (h0 : attempt 0 = .error e) (hce : is_connection_error e = false) :
    send_command_with_retry attempt reconnect m = .error e := by
  unfold send_command_with_retry
  unfold scwr_loop
  simp only [h0, hce, if_false]
  simp

theorem scwr_exhausts (attempt : Nat → Except String (List Nat))
    (reconnect : Nat → Except String Unit)
    (hrec : ∀ k, reconnect k = .ok ())
    (herr : ∀ k, ∃ ek, attempt k = .error ek ∧ is_connection_error ek = true) :
    ∀ b k, ∃ e2, scwr_loop attempt reconnect k b = .error e2 ∧ attempt (k + b) = .error e2 := by
  intro b
  induction b with
  | zero =>
    intro k
    obtain ⟨ek, h1, h2⟩ := herr k
    refine ⟨ek, ?_, by simpa using h1⟩
    unfold scwr_loop
    simp [h1, h2]
  | succ n ih =>
    intro k
    obtain ⟨ek, h1, h2⟩ := herr k
    obtain ⟨e2, hl, ha⟩ := ih (k + 1)
    refine ⟨e2, ?_, by rw [show k + (n + 1) = (k + 1) + n by omega]; exact ha⟩
    unfold scwr_loop
    simp [h1, h2, hrec k, hl]

theorem get_totp_no_retry (env : BtEnv) (epoch : Int) (now : Nat) (s : CpenState)
    (a e : String)
    (hs : s.totp_cache = none) (ha : s.connected_address = some a)
    (halive : env.is_alive = .ok true) (hst : env.send_set_time = .ok ())
    (hsend : env.send_get_totp = .error e) :
    (get_totp env epoch now s).1 = .error ("发送getTotp命令失败: " ++ e) ∧
    (get_totp env epoch now s).2.2 =
      [.sendOp ("setTime:" ++ toString epoch), .recvOp, .sendOp "getTotp"] := by
  have hrefresh : should_refresh_totp s now = true := by
    unfold should_refresh_totp
    rw [hs]
  unfold get_totp
  rw [totp_conn_some_alive env s a ha halive]
  simp [hrefresh, hst, hsend]

/-- C3 amended -/
theorem reconnect_retry_semantics (env : BtEnv) (epoch : Int) (now : Nat) (s : CpenState)
    (a e e1 : String) (v : List Nat)
    (attempt : Nat → Except String (List Nat)) (reconnect : Nat → Except String Unit)
    (hs : s.totp_cache = none) (ha : s.connected_address = some a)
    (halive : env.is_alive = .ok true) (hst : env.send_set_time = .ok ())
    (hsend : env.send_get_totp = .error e)
    (ha0 : attempt 0 = .error e1) (hrec : ∀ k, reconnect k = .ok ())
    (ha1 : attempt 1 = .ok v) :
    ((get_totp env epoch now s).1 = .error ("发送getTotp命令失败: " ++ e) ∧
     (get_totp env epoch now s).2.2 =
       [.sendOp ("setTime:" ++ toString epoch), .recvOp, .sendOp "getTotp"] ∧
     (get_totp env epoch now s).2.2.count (.sendOp "getTotp") = 1) ∧
    (is_connection_error e1 = true →
       send_command_with_retry attempt reconnect 2 = .ok v) ∧
    (is_connection_error e1 = false →
       send_command_with_retry attempt reconnect 2 = .error e1) ∧
    (∀ att2 : Nat → Except String (List Nat),
       (∀ k, ∃ ek, att2 k = .error ek ∧ is_connection_error ek = true) →
       ∃ e2, send_command_with_retry att2 reconnect 2 = .error e2 ∧ att2 2 = .error e2) := by
  obtain ⟨hres, htrace⟩ := get_totp_no_retry env epoch now s a e hs ha halive hst hsend
  refine ⟨⟨hres, htrace, ?_⟩, ?_, ?_, ?_⟩
  · rw [htrace]
    rfl
  · intro hce
    exact scwr_retry_delivers attempt reconnect e1 v 1 ha0 hce (hrec 0) ha1
  · intro hce
    exact scwr_nonconn_propagates attempt reconnect e1 2 ha0 hce
  · intro att2 herr
    simpa [send_command_with_retry] using scwr_exhausts att2 reconnect hrec herr 2 0

/-! Concrete sample objects for witnesses and counterexamples -/

theorem env_all_ok_totp : totp_env_ok envAllOk "123456" := by
  refine ⟨⟨rfl, [sampleOther, sampleCpen], sampleCpen, [], rfl, ?_, rfl⟩, rfl, rfl, rfl,
    [49, 50, 51, 52, 53, 54], rfl, ?_⟩ <;> decide

theorem env_all_ok_id : id_env_ok envAllOk "dev1" := by
  refine ⟨⟨rfl, [sampleOther, sampleCpen], sampleCpen, [], rfl, ?_, rfl⟩, rfl,
    [100, 101, 118, 49], rfl, ?_⟩ <;> decide

/-- C1 witness -/
theorem totp_refresh_ahead_witness :
    totp_env_ok envAllOk "123456" ∧ should_refresh_totp stFresh 110 = true ∧
    (get_totp envAllOk 0 110 stFresh).1 = .ok "123456" ∧
    (get_totp envAllOk 0 110 stFresh).2.1.totp_cache = some ("123456", 110) ∧
    .sendOp "getTotp" ∈ (get_totp envAllOk 0 110 stFresh).2.2 := by
  have h := (totp_refresh_ahead envAllOk 0 110 stFresh "123456" env_all_ok_totp).2 rfl
  exact ⟨env_all_ok_totp, rfl, h.1, h.2.1, h.2.2⟩

/-- C9 witness -/
theorem totp_cache_atomic_witness :
    (get_totp envTotpDrop 0 110 stLinked).1 = .error "发送getTotp命令失败: 连接已断开" ∧
    (get_totp envTotpDrop 0 110 stLinked).2.1.totp_cache = stLinked.totp_cache := by
  refine ⟨rfl, (totp_cache_atomic envTotpDrop 0 110 stLinked).1 _ rfl⟩

/-- C5 witness -/
theorem disconnect_clears_witness :
    totp_env_ok envAllOk "123456" ∧ id_env_ok envAllOk "dev1" ∧
    (disconnect (.error "底层断开失败") stLinked).1 = .ok () ∧
    (disconnect (.error "底层断开失败") stLinked).2.totp_cache = none ∧
    get_connection_status (disconnect (.error "底层断开失败") stLinked).2 = "未连接设备" ∧
    .scanOp ∈ (get_totp envAllOk 0 110 (disconnect (.error "底层断开失败") stLinked).2).2.2 := by
  have h := disconnect_clears stLinked (.error "底层断开失败") envAllOk 0 110 "123456" "dev1"
    env_all_ok_totp env_all_ok_id
  exact ⟨env_all_ok_totp, env_all_ok_id, h.1, h.2.1, h.2.2.2.2.2.2.1, h.2.2.2.2.2.2.2.1.1⟩

/-- C3 counterexample -/
theorem reconnect_retry_counterexample :
    is_connection_error "连接已断开" = true ∧
    (get_totp envTotpDrop 0 110 stLinked).1 = .error "发送getTotp命令失败: 连接已断开" ∧
    (get_totp envTotpDrop 0 110 stLinked).2.2 =
      [.sendOp "setTime:0", .recvOp, .sendOp "getTotp"] ∧
    (get_totp envTotpDrop 0 110 stLinked).2.2.count (.sendOp "getTotp") = 1 := by
  refine ⟨by decide, rfl, rfl, rfl⟩

/-- C3 witness -/
theorem reconnect_retry_semantics_witness :
    ((get_totp envTotpDrop 0 110 stLinked).1 = .error "发送getTotp命令失败: 连接已断开" ∧
     (get_totp envTotpDrop 0 110 stLinked).2.2.count (.sendOp "getTotp") = 1) ∧
    send_command_with_retry sampleAttempt (fun _ => .ok ()) 2 = .ok [49, 50] := by
  have h := reconnect_retry_semantics envTotpDrop 0 110 stLinked "AA:BB:CC" "连接已断开"
    "连接已断开" [49, 50] sampleAttempt (fun _ => .ok ()) rfl rfl rfl rfl rfl rfl
    (fun _ => rfl) rfl
  exact ⟨⟨h.1.1, h.1.2.2⟩, h.2.1 (by decide)⟩

/-! C2: counterexample, amended theorem, witness -/

theorem chunk_count_float_counterexample :
    chunks_count (2 ^ 53 + 1) = 2 ^ 31 ∧
    (2 ^ 53 + 1 + CHUNK_SIZE - 1) / CHUNK_SIZE = 2 ^ 31 + 1 ∧
    chunks_count (2 ^ 53 + 1) ≠ (2 ^ 53 + 1 + CHUNK_SIZE - 1) / CHUNK_SIZE ∧
    chunk_range_end (2 ^ 53 + 1) (chunks_count (2 ^ 53 + 1))
      (chunks_count (2 ^ 53 + 1) - 1) = 2 ^ 53 + 1 - 1 ∧
    chunk_len (2 ^ 53 + 1) (chunks_count (2 ^ 53 + 1))
      (chunks_count (2 ^ 53 + 1) - 1) = CHUNK_SIZE + 1 ∧
    (Finset.range (chunks_count (2 ^ 53 + 1))).sum
      (fun i => chunk_len (2 ^ 53 + 1) (chunks_count (2 ^ 53 + 1)) i) = 2 ^ 53 + 1 := by
  have hc : chunks_count (2 ^ 53 + 1) = 2 ^ 31 := by decide
  have hflen : chunk_len (2 ^ 53 + 1) (2 ^ 31) (2 ^ 31 - 1) = CHUNK_SIZE + 1 := by decide
  refine ⟨hc, by decide, by decide, ?_, ?_, ?_⟩
  · rw [hc]
    exact chunk_range_end_final (2 ^ 53 + 1) (2 ^ 31) (by norm_num) (by norm_num)
  · rw [hc]
    exact hflen
  · rw [hc]
    obtain ⟨m, hm⟩ : ∃ m, (2:Nat) ^ 31 = m + 1 := ⟨2 ^ 31 - 1, by norm_num⟩
    rw [hm, Finset.sum_range_succ]
    have hnf : ∀ i ∈ Finset.range m, chunk_len (2 ^ 53 + 1) (m + 1) i = CHUNK_SIZE := by
      intro i hi
      refine chunk_len_nonfinal (2 ^ 53 + 1) (m + 1) i ?_
      simp only [Finset.mem_range] at hi
      omega
    have hlast : chunk_len (2 ^ 53 + 1) (m + 1) m = CHUNK_SIZE + 1 := by
      rw [hm] at hflen
      simpa using hflen
    rw [Finset.sum_congr rfl hnf, Finset.sum_const, Finset.card_range, smul_eq_mul, hlast]
    have hC : CHUNK_SIZE = 4194304 := rfl
    have hm2 : m = 2 ^ 31 - 1 := by omega
    rw [hC, hm2]
    norm_num

/-- C2: for sizes up to 2^53 (where the f64 round trip is exact) the chunk
count is the exact ceiling of S / CHUNK_SIZE, every non-final chunk covers
exactly CHUNK_SIZE bytes ending at (i+1)*CHUNK_SIZE - 1, the final chunk
ends at byte S - 1, and the chunk lengths partition the S bytes. -/
theorem chunk_layout (S : Nat) (h1 : 0 < S) (h2 : S ≤ 2 ^ 53) :
    chunks_count S = (S + CHUNK_SIZE - 1) / CHUNK_SIZE ∧
    (∀ i, i + 1 < chunks_count S →
        chunk_range_end S (chunks_count S) i = i * CHUNK_SIZE + CHUNK_SIZE - 1) ∧
    chunk_range_end S (chunks_count S) (chunks_count S - 1) = S - 1 ∧
    (Finset.range (chunks_count S)).sum (fun i => chunk_len S (chunks_count S) i) = S := by
  have hcc := chunks_count_eq_ceil S h1 h2
  obtain ⟨hb1, hb2, hb3⟩ := ceil_chunks_bounds S h1
  have h64 : S < 2 ^ 64 := by
    have hp : (2:Nat) ^ 53 < 2 ^ 64 := by norm_num
    omega
  refine ⟨hcc, ?_, ?_, ?_⟩
  · intro i hi
    exact chunk_range_end_nonfinal S (chunks_count S) i hi
  · exact chunk_range_end_final S (chunks_count S) h1 h64
  · rw [hcc]
    obtain ⟨m, hm⟩ : ∃ m, (S + CHUNK_SIZE - 1) / CHUNK_SIZE = m + 1 :=
      ⟨(S + CHUNK_SIZE - 1) / CHUNK_SIZE - 1, by omega⟩
    rw [hm, Finset.sum_range_succ]
    have hlast : chunk_len S (m + 1) m = S - m * CHUNK_SIZE := by
      have hfin := chunk_len_final S h1 h2
      rw [hm] at hfin
      simpa using hfin
    have hnf : ∀ i ∈ Finset.range m, chunk_len S (m + 1) i = CHUNK_SIZE := by
      intro i hi
      refine chunk_len_nonfinal S (m + 1) i ?_
      simp only [Finset.mem_range] at hi
      omega
    rw [Finset.sum_congr rfl hnf, Finset.sum_const, Finset.card_range, smul_eq_mul, hlast]
    have hmc : m * CHUNK_SIZE < S := by
      have hx := hb1
      rw [hm] at hx
      simpa using hx
    omega

/-- C2 witness at the claim's own example S = 9,000,000. -/
theorem chunk_layout_witness :
    chunks_count 9000000 = (9000000 + CHUNK_SIZE - 1) / CHUNK_SIZE ∧
    (∀ i, i + 1 < chunks_count 9000000 →
        chunk_range_end 9000000 (chunks_count 9000000) i = i * CHUNK_SIZE + CHUNK_SIZE - 1) ∧
    chunk_range_end 9000000 (chunks_count 9000000) (chunks_count 9000000 - 1) = 9000000 - 1 ∧
    (Finset.range (chunks_count 9000000)).sum
      (fun i => chunk_len 9000000 (chunks_count 9000000) i) = 9000000 :=
  chunk_layout 9000000 (by decide) (by decide)

/-- C10: at total_size = 0 the claimed underflow-freedom fails: the code still
enters the chunk loop (chunks_count 0 = 1) and computes total_size - 1 on u64,
which wraps to 2^64 - 1, so the download issues a ranged request for bytes
0..2^64 - 1 and the upload posts the wrapped-length (empty) slice before
finalising. -/
theorem zero_size_underflow :
    chunks_count 0 = 1 ∧
    (0 : Nat) < 1 ∧
    chunk_range_end 0 (chunks_count 0) 0 = 2 ^ 64 - 1 ∧
    sub64 0 1 = 2 ^ 64 - 1 ∧
    (download_start 0 none attOkEmpty noPause).2.trace =
      [.request 0 0 (2 ^ 64 - 1), .write 0 0] ∧
    (upload_start 0 "uid" "f" none [] [] attUlOk noPause (.ok "r")).2.trace =
      [.statusQuery, .post "uid" 0 [], UlEvent.finish "uid" "f" 1 none] := by
  refine ⟨by decide, by decide, by decide, by decide, by decide, by decide⟩

/-! Download loop lemmas -/

theorem dl_attempts_first_ok (att1 : Nat → ChunkAttempt) (i rs re : Nat) (d : List Nat)
    (h0 : att1 0 = .ok d) :
    dl_attempts att1 i rs re 0 3 = ([.request i rs re], .ok d) := by
  unfold dl_attempts
  simp [h0]

theorem dl_attempts_third_ok (att1 : Nat → ChunkAttempt) (i rs re : Nat)
    (e0 e1 : String) (d : List Nat)
    (h0 : att1 0 = .fetchFail e0) (h1 : att1 1 = .fetchFail e1) (h2 : att1 2 = .ok d) :
    dl_attempts att1 i rs re 0 3 =
      ([.request i rs re, .request i rs re, .request i rs re], .ok d) := by
  unfold dl_attempts
  simp only [h0]
  unfold dl_attempts
  simp only [h1]
  unfold dl_attempts
  simp [h2]

theorem dl_attempts_three_fail (att1 : Nat → ChunkAttempt) (i rs re : Nat)
    (e0 e1 e2 : String)
    (h0 : att1 0 = .fetchFail e0) (h1 : att1 1 = .fetchFail e1) (h2 : att1 2 = .fetchFail e2) :
    dl_attempts att1 i rs re 0 3 =
      ([.request i rs re, .request i rs re, .request i rs re], .error e2) := by
  unfold dl_attempts
  simp only [h0]
  unfold dl_attempts
  simp only [h1]
  unfold dl_attempts
  simp [h2]

theorem dl_process_ok (S count : Nat) (att : Nat → Nat → ChunkAttempt) (i : Nat)
    (r : DlRun) (evs : List DlEvent) (d : List Nat)
    (h : dl_attempts (att i) i (i * CHUNK_SIZE) (chunk_range_end S count i) 0 3 =
      (evs, .ok d)) :
    dl_process_chunk S count att i r =
      (.ok (), { r with
          file_len := max (i * CHUNK_SIZE + d.length) r.file_len,
          downloaded := r.downloaded + d.length,
          trace := r.trace ++ evs ++ [.write (i * CHUNK_SIZE) d.length] }) := by
  unfold dl_process_chunk
  simp only [h]

theorem dl_process_fail (S count : Nat) (att : Nat → Nat → ChunkAttempt) (i : Nat)
    (r : DlRun) (evs : List DlEvent) (e : String)
    (h : dl_attempts (att i) i (i * CHUNK_SIZE) (chunk_range_end S count i) 0 3 =
      (evs, .error e)) :
    dl_process_chunk S count att i r =
      (.error ("分片 " ++ toString i ++ " 下载失败: " ++ e),
       { r with status := .Error ("分片 " ++ toString i ++ " 下载失败: " ++ e),
                trace := r.trace ++ evs }) := by
  unfold dl_process_chunk
  simp only [h]

theorem dl_loop_all_ok (S count : Nat) (att : Nat → Nat → ChunkAttempt)
    (pausedAt : Nat → Bool) (evs : Nat → List DlEvent) (d : Nat → List Nat) :
    ∀ (l : List Nat) (r : DlRun), dl_stop r.status = false →
    (∀ i ∈ l, pausedAt i = false) →
    (∀ i ∈ l, dl_attempts (att i) i (i * CHUNK_SIZE) (chunk_range_end S count i) 0 3 =
      (evs i, .ok (d i))) →
    dl_loop S count att pausedAt l r =
      (.ok .finished,
       { file_len := l.foldl (fun acc i => max (i * CHUNK_SIZE + (d i).length) acc) r.file_len,
         downloaded := r.downloaded + (l.map (fun i => (d i).length)).sum,
         status := r.status,
         trace := r.trace ++
           l.flatMap (fun i => evs i ++ [.write (i * CHUNK_SIZE) (d i).length]) })
  | [], r, hst, _, _ => by
    simp [dl_loop]
  | i :: rest, r, hst, hp, hok => by
    unfold dl_loop
    simp only [hst, hp i (by simp), Bool.false_eq_true, if_false,
      dl_process_ok S count att i r (evs i) (d i) (hok i (by simp))]
    rw [dl_loop_all_ok S count att pausedAt evs d rest _ (by simpa using hst)
      (fun j hj => hp j (by simp [hj])) (fun j hj => hok j (by simp [hj]))]
    simp [Nat.add_assoc]

theorem dl_loop_append (S count : Nat) (att : Nat → Nat → ChunkAttempt)
    (pausedAt : Nat → Bool) :
    ∀ (l1 l2 : List Nat) (r : DlRun),
    dl_loop S count att pausedAt (l1 ++ l2) r =
      match dl_loop S count att pausedAt l1 r with
      | (.ok .finished, r1) => dl_loop S count att pausedAt l2 r1
      | other => other
  | [], l2, r => by simp [dl_loop]
  | i :: rest, l2, r => by
    show dl_loop S count att pausedAt (i :: (rest ++ l2)) r = _
    cases hstop : dl_stop r.status with
    | true => simp only [dl_loop, hstop]; simp
    | false =>
      cases hp : pausedAt i with
      | true => simp only [dl_loop, hstop, hp]; simp
      | false =>
        rcases hpr : dl_process_chunk S count att i r with ⟨res, r1⟩
        cases res with
        | ok u =>
          simp only [dl_loop, hstop, hp, hpr, Bool.false_eq_true, if_false]
          exact dl_loop_append S count att pausedAt rest l2 r1
        | error e =>
          simp only [dl_loop, hstop, hp, hpr, Bool.false_eq_true, if_false]


theorem dl_loop_pause_head (S count : Nat) (att : Nat → Nat → ChunkAttempt)
    (pausedAt : Nat → Bool) (i : Nat) (rest : List Nat) (r : DlRun)
    (hst : dl_stop r.status = false) (hp : pausedAt i = true) :
    dl_loop S count att pausedAt (i :: rest) r = (.ok .interrupted, r) := by
  unfold dl_loop
  simp only [hst, hp, Bool.false_eq_true, if_false, if_true]

theorem dl_loop_fail_head (S count : Nat) (att : Nat → Nat → ChunkAttempt)
    (pausedAt : Nat → Bool) (i : Nat) (rest : List Nat) (r : DlRun)
    (evs : List DlEvent) (e : String)
    (hst : dl_stop r.status = false) (hp : pausedAt i = false)
    (h : dl_attempts (att i) i (i * CHUNK_SIZE) (chunk_range_end S count i) 0 3 =
      (evs, .error e)) :
    dl_loop S count att pausedAt (i :: rest) r =
      (.error ("分片 " ++ toString i ++ " 下载失败: " ++ e),
       { r with status := .Error ("分片 " ++ toString i ++ " 下载失败: " ++ e),
                trace := r.trace ++ evs }) := by
  unfold dl_loop
  simp only [hst, hp, Bool.false_eq_true, if_false,
    dl_process_fail S count att i r evs e h]

theorem dl_fold_file_len (S : Nat) (d : Nat → List Nat) (hS : 0 < S) (h53 : S ≤ 2 ^ 53)
    (hlen : ∀ j, (d j).length = chunk_len S (chunks_count S) j) :
    ∀ (n k : Nat), k + n = chunks_count S → 0 < n →
    (List.range' k n).foldl (fun acc i => max (i * CHUNK_SIZE + (d i).length) acc)
      (k * CHUNK_SIZE) = S := by
  have hcc := chunks_count_eq_ceil S hS h53
  obtain ⟨hb1, hb2, hb3⟩ := ceil_chunks_bounds S hS
  have hC : CHUNK_SIZE = 4194304 := rfl
  intro n
  induction n with
  | zero => omega
  | succ m ih =>
    intro k hk _
    cases m with
    | zero =>
      have hkc : k = chunks_count S - 1 := by omega
      have hfin : (d k).length = S - k * CHUNK_SIZE := by
        rw [hlen k, hkc]
        rw [hcc]
        have := chunk_len_final S hS h53
        rw [this, ← hcc, ← hkc]
      have hkS : k * CHUNK_SIZE < S := by
        have := hb1
        rw [← hcc] at this
        rw [hkc]
        exact this
      have hr1 : List.range' k 1 = [k] := rfl
      rw [hr1]
      simp only [List.foldl_cons, List.foldl_nil]
      rw [hfin, Nat.max_eq_left (by omega)]
      omega
    | succ p =>
      have hnf : (d k).length = CHUNK_SIZE := by
        rw [hlen k]
        exact chunk_len_nonfinal S (chunks_count S) k (by omega)
      have hstep : max (k * CHUNK_SIZE + (d k).length) (k * CHUNK_SIZE) =
          (k + 1) * CHUNK_SIZE := by
        rw [hnf, Nat.max_eq_left (by omega)]
        ring
      show (List.range' k (p + 1 + 1)).foldl _ _ = S
      rw [List.range'_succ]
      simp only [List.foldl_cons]
      rw [hstep]
      exact ih (k + 1) (by omega) (by omega)

theorem reqCount_append (t1 t2 : List DlEvent) (i : Nat) :
    reqCount (t1 ++ t2) i = reqCount t1 i + reqCount t2 i := by
  unfold reqCount
  exact List.countP_append _ _ _

theorem reqCount_flatMap (f : Nat → List DlEvent) (i : Nat) :
    ∀ l : List Nat, reqCount (l.flatMap f) i = (l.map (fun j => reqCount (f j) i)).sum
  | [] => by simp [reqCount]
  | j :: rest => by
    simp only [List.flatMap_cons, List.map_cons, List.sum_cons]
    rw [reqCount_append, reqCount_flatMap f i rest]

theorem reqCount_block_ne (i j rs re off len : Nat) (hne : j ≠ i) :
    reqCount [DlEvent.request j rs re, DlEvent.write off len] i = 0 := by
  unfold reqCount
  simp [List.countP_cons, hne]

theorem reqCount_block_eq (i rs re off len : Nat) :
    reqCount [DlEvent.request i rs re, DlEvent.write off len] i = 1 := by
  unfold reqCount
  simp [List.countP_cons]

theorem sum_map_ite_single (c i : Nat) :
    ∀ (n k : Nat), k ≤ i → i < k + n →
    ((List.range' k n).map (fun j => if j = i then c else 0)).sum = c := by
  intro n
  induction n with
  | zero => omega
  | succ m ih =>
    intro k hk1 hk2
    rw [List.range'_succ]
    simp only [List.map_cons, List.sum_cons]
    rcases Nat.eq_or_lt_of_le hk1 with heq | hlt
    · rw [if_pos heq]
      have hz : ((List.range' (k + 1) m).map (fun j => if j = i then c else 0)).sum = 0 := by
        apply List.sum_eq_zero
        intro x hx
        simp only [List.mem_map] at hx
        obtain ⟨j, hj, hxj⟩ := hx
        have hjge : k + 1 ≤ j := (List.mem_range'_1.mp hj).1
        rw [← hxj, if_neg (by omega)]
      omega
    · rw [if_neg (by omega)]
      have := ih (k + 1) (by omega) (by omega)
      omega

theorem sum_map_all_zero (f : Nat → Nat) (l : List Nat) (h : ∀ j ∈ l, f j = 0) :
    (l.map f).sum = 0 := by
  apply List.sum_eq_zero
  intro x hx
  simp only [List.mem_map] at hx
  obtain ⟨j, hj, hxj⟩ := hx
  rw [← hxj]
  exact h j hj


/-- C6: resuming a download with L bytes already on disk (L < 2^54, so the
as-u32 cast of L / CHUNK_SIZE is exact) restarts at chunk floor(L / CHUNK_SIZE),
requests no chunk below that index, writes each fetched chunk at its exact
byte offset, and accounts the pre-existing L bytes in the progress counter. -/
theorem download_resume (S L : Nat) (att : Nat → Nat → ChunkAttempt) (d : Nat → List Nat)
    (hL : L < 2 ^ 54) (hatt : ∀ j k, att j k = .ok (d j)) :
    L / CHUNK_SIZE % 2 ^ 32 = L / CHUNK_SIZE ∧
    (download_start S (some L) att noPause).2.downloaded =
      L + ((List.range' (L / CHUNK_SIZE) (chunks_count S - L / CHUNK_SIZE)).map
        (fun i => (d i).length)).sum ∧
    (download_start S (some L) att noPause).2.trace =
      (List.range' (L / CHUNK_SIZE) (chunks_count S - L / CHUNK_SIZE)).flatMap
        (fun i => [.request i (i * CHUNK_SIZE) (chunk_range_end S (chunks_count S) i),
                   .write (i * CHUNK_SIZE) (d i).length]) ∧
    (∀ j, j < L / CHUNK_SIZE →
      reqCount (download_start S (some L) att noPause).2.trace j = 0) := by
  have hdiv : L / CHUNK_SIZE < 2 ^ 32 := by
    have h2 : (2 : Nat) ^ 54 = 2 ^ 32 * CHUNK_SIZE := by decide
    refine Nat.div_lt_of_lt_mul ?_
    omega
  have hmod : L / CHUNK_SIZE % 2 ^ 32 = L / CHUNK_SIZE := Nat.mod_eq_of_lt hdiv
  have hloop := dl_loop_all_ok S (chunks_count S) att noPause
    (fun j => [.request j (j * CHUNK_SIZE) (chunk_range_end S (chunks_count S) j)]) d
    (List.range' (L / CHUNK_SIZE) (chunks_count S - L / CHUNK_SIZE))
    { file_len := (some L).getD 0, downloaded := (some L).getD 0,
      status := .Downloading, trace := [] }
    rfl (fun _ _ => rfl)
    (fun j _ => dl_attempts_first_ok (att j) j (j * CHUNK_SIZE)
      (chunk_range_end S (chunks_count S) j) (d j) (hatt j 0))
  have hbody : (download_start S (some L) att noPause).2.downloaded =
      L + ((List.range' (L / CHUNK_SIZE) (chunks_count S - L / CHUNK_SIZE)).map
        (fun i => (d i).length)).sum ∧
      (download_start S (some L) att noPause).2.trace =
      (List.range' (L / CHUNK_SIZE) (chunks_count S - L / CHUNK_SIZE)).flatMap
        (fun i => [.request i (i * CHUNK_SIZE) (chunk_range_end S (chunks_count S) i),
                   .write (i * CHUNK_SIZE) (d i).length]) := by
    unfold download_start
    simp only [hmod, hloop]
    split
    · constructor
      · simp
      · simp
    · constructor
      · simp
      · simp
  refine ⟨hmod, hbody.1, hbody.2, ?_⟩
  intro j hj
  rw [hbody.2, reqCount_flatMap]
  apply sum_map_all_zero
  intro j2 hj2
  have hge : L / CHUNK_SIZE ≤ j2 := (List.mem_range'_1.mp hj2).1
  exact reqCount_block_ne j j2 _ _ _ _ (by omega)

theorem download_resume_counterexample :
    ((2 : Nat) ^ 54 / CHUNK_SIZE = 2 ^ 32) ∧
    (0 : Nat) < 2 ^ 54 / CHUNK_SIZE ∧
    reqCount (download_start 9000000 (some (2 ^ 54)) attOkEmpty noPause).2.trace 0 = 1 := by
  refine ⟨by decide, by decide, by decide⟩

theorem download_resume_witness :
    ((5000000 : Nat) < 2 ^ 54) ∧
    ((5000000 : Nat) / CHUNK_SIZE = 1) ∧
    (5000000 : Nat) / CHUNK_SIZE % 2 ^ 32 = 5000000 / CHUNK_SIZE ∧
    (download_start 9000000 (some 5000000) (fun _ _ => .ok []) noPause).2.downloaded =
      5000000 + ((List.range' (5000000 / CHUNK_SIZE)
        (chunks_count 9000000 - 5000000 / CHUNK_SIZE)).map
          (fun i => ([] : List Nat).length)).sum ∧
    (download_start 9000000 (some 5000000) (fun _ _ => .ok []) noPause).2.trace =
      (List.range' (5000000 / CHUNK_SIZE) (chunks_count 9000000 - 5000000 / CHUNK_SIZE)).flatMap
        (fun i => [.request i (i * CHUNK_SIZE) (chunk_range_end 9000000 (chunks_count 9000000) i),
                   .write (i * CHUNK_SIZE) ([] : List Nat).length]) ∧
    (∀ j2, j2 < 5000000 / CHUNK_SIZE →
      reqCount (download_start 9000000 (some 5000000) (fun _ _ => .ok []) noPause).2.trace j2
        = 0) := by
  have h := download_resume 9000000 5000000 (fun _ _ => .ok []) (fun _ => [])
    (by decide) (fun _ _ => rfl)
  exact ⟨by decide, by decide, h.1, h.2.1, h.2.2.1, h.2.2.2⟩


/-! C4 download halves -/

theorem download_retry_third_ok (S i : Nat) (att : Nat → Nat → ChunkAttempt)
    (d : Nat → List Nat) (e0 e1 : String)
    (hS : 0 < S) (h53 : S ≤ 2 ^ 53) (hi : i < chunks_count S)
    (hf0 : att i 0 = .fetchFail e0) (hf1 : att i 1 = .fetchFail e1)
    (hs2 : att i 2 = .ok (d i))
    (hok : ∀ j, j ≠ i → att j 0 = .ok (d j))
    (hlen : ∀ j, (d j).length = chunk_len S (chunks_count S) j) :
    (download_start S none att noPause).1 = .ok () ∧
    (download_start S none att noPause).2.status = .Completed ∧
    reqCount (download_start S none att noPause).2.trace i = 3 := by
  obtain ⟨hb1, hb2, hb3⟩ := ceil_chunks_bounds S hS
  have hcc := chunks_count_eq_ceil S hS h53
  have hcpos : 0 < chunks_count S := by omega
  have hok_all : ∀ j ∈ List.range' 0 (chunks_count S),
      dl_attempts (att j) j (j * CHUNK_SIZE) (chunk_range_end S (chunks_count S) j) 0 3 =
        ((if j = i
          then [DlEvent.request j (j * CHUNK_SIZE) (chunk_range_end S (chunks_count S) j),
                DlEvent.request j (j * CHUNK_SIZE) (chunk_range_end S (chunks_count S) j),
                DlEvent.request j (j * CHUNK_SIZE) (chunk_range_end S (chunks_count S) j)]
          else [DlEvent.request j (j * CHUNK_SIZE) (chunk_range_end S (chunks_count S) j)]),
         .ok (d j)) := by
    intro j _
    by_cases hj : j = i
    · subst hj
      rw [if_pos rfl]
      exact dl_attempts_third_ok (att j) j _ _ e0 e1 (d j) hf0 hf1 hs2
    · rw [if_neg hj]
      exact dl_attempts_first_ok (att j) j _ _ (d j) (hok j hj)
  have hloop := dl_loop_all_ok S (chunks_count S) att noPause
    (fun j => if j = i
      then [DlEvent.request j (j * CHUNK_SIZE) (chunk_range_end S (chunks_count S) j),
            DlEvent.request j (j * CHUNK_SIZE) (chunk_range_end S (chunks_count S) j),
            DlEvent.request j (j * CHUNK_SIZE) (chunk_range_end S (chunks_count S) j)]
      else [DlEvent.request j (j * CHUNK_SIZE) (chunk_range_end S (chunks_count S) j)]) d
    (List.range' 0 (chunks_count S))
    { file_len := (none : Option Nat).getD 0, downloaded := (none : Option Nat).getD 0,
      status := .Downloading, trace := [] }
    rfl (fun _ _ => rfl) hok_all
  have hfold : (List.range' 0 (chunks_count S)).foldl
      (fun acc j => max (j * CHUNK_SIZE + (d j).length) acc)
      ((none : Option Nat).getD 0) = S := by
    have := dl_fold_file_len S d hS h53 hlen (chunks_count S) 0 (by omega) hcpos
    simpa using this
  have hcount : ∀ j ∈ List.range' 0 (chunks_count S),
      reqCount ((if j = i
        then [DlEvent.request j (j * CHUNK_SIZE) (chunk_range_end S (chunks_count S) j),
              DlEvent.request j (j * CHUNK_SIZE) (chunk_range_end S (chunks_count S) j),
              DlEvent.request j (j * CHUNK_SIZE) (chunk_range_end S (chunks_count S) j)]
        else [DlEvent.request j (j * CHUNK_SIZE) (chunk_range_end S (chunks_count S) j)]) ++
          [DlEvent.write (j * CHUNK_SIZE) (d j).length]) i =
        (if j = i then 3 else 0) := by
    intro j _
    by_cases hj : j = i
    · subst hj
      simp [reqCount, List.countP_cons, List.countP_nil]
    · rw [if_neg hj, if_neg hj]
      unfold reqCount
      simp [List.countP_cons, List.countP_nil, hj]
  unfold download_start
  simp only [hloop, Nat.sub_zero]
  rw [hfold]
  simp only [ne_eq, not_true_eq_false, if_false, ite_self]
  refine ⟨?_, ?_, ?_⟩
  · simp
  · simp
  · simp only [List.nil_append]
    rw [reqCount_flatMap]
    rw [List.map_congr_left hcount]
    exact sum_map_ite_single 3 i (chunks_count S) 0 (by omega) (by omega)


theorem download_retry_exhausted (S i : Nat) (att : Nat → Nat → ChunkAttempt)
    (d : Nat → List Nat) (e0 e1 e2 : String)
    (hi : i < chunks_count S)
    (hf0 : att i 0 = .fetchFail e0) (hf1 : att i 1 = .fetchFail e1)
    (hf2 : att i 2 = .fetchFail e2)
    (hok : ∀ j, j ≠ i → att j 0 = .ok (d j)) :
    (download_start S none att noPause).1 =
      .error ("分片 " ++ toString i ++ " 下载失败: " ++ e2) ∧
    (download_start S none att noPause).2.status =
      .Error ("分片 " ++ toString i ++ " 下载失败: " ++ e2) ∧
    reqCount (download_start S none att noPause).2.trace i = 3 ∧
    (∀ j, i < j → reqCount (download_start S none att noPause).2.trace j = 0) := by
  obtain ⟨m, hm⟩ : ∃ m, chunks_count S - i = m + 1 := ⟨chunks_count S - i - 1, by omega⟩
  have hsplit : List.range' 0 (chunks_count S) =
      List.range' 0 i ++ (i :: List.range' (i + 1) m) := by
    have h1 := List.range'_append 0 i (m + 1) 1
    have h3 : (0 : Nat) + 1 * i = i := by omega
    rw [h3] at h1
    have h4 : m + 1 + i = chunks_count S := by omega
    rw [h4] at h1
    rw [← h1, List.range'_succ]
  have hok_pre : ∀ j ∈ List.range' 0 i,
      dl_attempts (att j) j (j * CHUNK_SIZE) (chunk_range_end S (chunks_count S) j) 0 3 =
        ([DlEvent.request j (j * CHUNK_SIZE) (chunk_range_end S (chunks_count S) j)],
         .ok (d j)) := by
    intro j hj
    have hjlt : j < i := by
      have := List.mem_range'_1.mp hj
      omega
    exact dl_attempts_first_ok (att j) j _ _ (d j) (hok j (by omega))
  have hloop1 := dl_loop_all_ok S (chunks_count S) att noPause
    (fun j => [DlEvent.request j (j * CHUNK_SIZE) (chunk_range_end S (chunks_count S) j)]) d
    (List.range' 0 i)
    { file_len := (none : Option Nat).getD 0, downloaded := (none : Option Nat).getD 0,
      status := .Downloading, trace := [] }
    rfl (fun _ _ => rfl) hok_pre
  have hfail := dl_attempts_three_fail (att i) i (i * CHUNK_SIZE)
    (chunk_range_end S (chunks_count S) i) e0 e1 e2 hf0 hf1 hf2
  have hloop2 := dl_loop_fail_head S (chunks_count S) att noPause i
    (List.range' (i + 1) m)
    { file_len := (List.range' 0 i).foldl
        (fun acc j => max (j * CHUNK_SIZE + (d j).length) acc) ((none : Option Nat).getD 0),
      downloaded := (none : Option Nat).getD 0 +
        ((List.range' 0 i).map (fun j => (d j).length)).sum,
      status := DownloadStatus.Downloading,
      trace := [] ++ (List.range' 0 i).flatMap (fun j =>
        [DlEvent.request j (j * CHUNK_SIZE) (chunk_range_end S (chunks_count S) j)] ++
          [DlEvent.write (j * CHUNK_SIZE) (d j).length]) }
    _ e2 rfl rfl hfail
  have htr : (download_start S none att noPause).1 =
      .error ("分片 " ++ toString i ++ " 下载失败: " ++ e2) ∧
      (download_start S none att noPause).2.status =
        .Error ("分片 " ++ toString i ++ " 下载失败: " ++ e2) ∧
      (download_start S none att noPause).2.trace =
        (List.range' 0 i).flatMap (fun j =>
          [DlEvent.request j (j * CHUNK_SIZE) (chunk_range_end S (chunks_count S) j),
           DlEvent.write (j * CHUNK_SIZE) (d j).length]) ++
        [DlEvent.request i (i * CHUNK_SIZE) (chunk_range_end S (chunks_count S) i),
         DlEvent.request i (i * CHUNK_SIZE) (chunk_range_end S (chunks_count S) i),
         DlEvent.request i (i * CHUNK_SIZE) (chunk_range_end S (chunks_count S) i)] := by
    unfold download_start
    simp only [Nat.sub_zero, hsplit, dl_loop_append, hloop1, hloop2]
    refine ⟨?_, ?_, ?_⟩ <;> simp
  refine ⟨htr.1, htr.2.1, ?_, ?_⟩
  · rw [htr.2.2, reqCount_append, reqCount_flatMap]
    have hz : ((List.range' 0 i).map (fun j => reqCount
        ([DlEvent.request j (j * CHUNK_SIZE) (chunk_range_end S (chunks_count S) j),
          DlEvent.write (j * CHUNK_SIZE) (d j).length]) i)).sum = 0 := by
      apply sum_map_all_zero
      intro j hj
      have := List.mem_range'_1.mp hj
      exact reqCount_block_ne i j _ _ _ _ (by omega)
    rw [hz]
    unfold reqCount
    simp [List.countP_cons]
  · intro j hj
    rw [htr.2.2, reqCount_append, reqCount_flatMap]
    have hz : ((List.range' 0 i).map (fun j2 => reqCount
        ([DlEvent.request j2 (j2 * CHUNK_SIZE) (chunk_range_end S (chunks_count S) j2),
          DlEvent.write (j2 * CHUNK_SIZE) (d j2).length]) j)).sum = 0 := by
      apply sum_map_all_zero
      intro j2 hj2
      have := List.mem_range'_1.mp hj2
      exact reqCount_block_ne j j2 _ _ _ _ (by omega)
    rw [hz]
    unfold reqCount
    simp [List.countP_cons, Nat.ne_of_lt hj]


/-! C8 download half -/

theorem download_pause (S i : Nat) (att : Nat → Nat → ChunkAttempt)
    (d : Nat → List Nat) (pausedAt : Nat → Bool)
    (hi : i < chunks_count S)
    (hplt : ∀ j, j < i → pausedAt j = false) (hp : pausedAt i = true)
    (hatt : ∀ j k, att j k = .ok (d j)) :
    (download_start S none att pausedAt).1 = .ok () ∧
    (download_start S none att pausedAt).2.trace =
      (List.range' 0 i).flatMap (fun j =>
        [DlEvent.request j (j * CHUNK_SIZE) (chunk_range_end S (chunks_count S) j),
         DlEvent.write (j * CHUNK_SIZE) (d j).length]) ∧
    (∀ j, i ≤ j → reqCount (download_start S none att pausedAt).2.trace j = 0) := by
  obtain ⟨m, hm⟩ : ∃ m, chunks_count S - i = m + 1 := ⟨chunks_count S - i - 1, by omega⟩
  have hsplit : List.range' 0 (chunks_count S) =
      List.range' 0 i ++ (i :: List.range' (i + 1) m) := by
    have h1 := List.range'_append 0 i (m + 1) 1
    have h3 : (0 : Nat) + 1 * i = i := by omega
    rw [h3] at h1
    have h4 : m + 1 + i = chunks_count S := by omega
    rw [h4] at h1
    rw [← h1, List.range'_succ]
  have hok_pre : ∀ j ∈ List.range' 0 i,
      dl_attempts (att j) j (j * CHUNK_SIZE) (chunk_range_end S (chunks_count S) j) 0 3 =
        ([DlEvent.request j (j * CHUNK_SIZE) (chunk_range_end S (chunks_count S) j)],
         .ok (d j)) := by
    intro j _
    exact dl_attempts_first_ok (att j) j _ _ (d j) (hatt j 0)
  have hp_pre : ∀ j ∈ List.range' 0 i, pausedAt j = false := by
    intro j hj
    have := List.mem_range'_1.mp hj
    exact hplt j (by omega)
  have hloop1 := dl_loop_all_ok S (chunks_count S) att pausedAt
    (fun j => [DlEvent.request j (j * CHUNK_SIZE) (chunk_range_end S (chunks_count S) j)]) d
    (List.range' 0 i)
    { file_len := (none : Option Nat).getD 0, downloaded := (none : Option Nat).getD 0,
      status := .Downloading, trace := [] }
    rfl hp_pre hok_pre
  have hloop2 := dl_loop_pause_head S (chunks_count S) att pausedAt i
    (List.range' (i + 1) m)
    { file_len := (List.range' 0 i).foldl
        (fun acc j => max (j * CHUNK_SIZE + (d j).length) acc) ((none : Option Nat).getD 0),
      downloaded := (none : Option Nat).getD 0 +
        ((List.range' 0 i).map (fun j => (d j).length)).sum,
      status := DownloadStatus.Downloading,
      trace := [] ++ (List.range' 0 i).flatMap (fun j =>
        [DlEvent.request j (j * CHUNK_SIZE) (chunk_range_end S (chunks_count S) j)] ++
          [DlEvent.write (j * CHUNK_SIZE) (d j).length]) }
    rfl hp
  have htr : (download_start S none att pausedAt).1 = .ok () ∧
      (download_start S none att pausedAt).2.trace =
        (List.range' 0 i).flatMap (fun j =>
          [DlEvent.request j (j * CHUNK_SIZE) (chunk_range_end S (chunks_count S) j),
           DlEvent.write (j * CHUNK_SIZE) (d j).length]) := by
    unfold download_start
    simp only [Nat.sub_zero, hsplit, dl_loop_append, hloop1, hloop2]
    refine ⟨?_, ?_⟩ <;> simp
  refine ⟨htr.1, htr.2, ?_⟩
  intro j hj
  rw [htr.2, reqCount_flatMap]
  apply sum_map_all_zero
  intro j2 hj2
  have := List.mem_range'_1.mp hj2
  exact reqCount_block_ne j j2 _ _ _ _ (by omega)

/-! Upload loop lemmas -/

theorem ul_attempts_first_ok (att1 : Nat → UlAttempt) (uid : String) (i : Nat)
    (data : List Nat) (h0 : att1 0 = .ok) :
    ul_attempts att1 uid i data 0 3 = ([.post uid i data], .ok ()) := by
  unfold ul_attempts
  simp [h0]

theorem ul_attempts_third_ok (att1 : Nat → UlAttempt) (uid : String) (i : Nat)
    (data : List Nat) (e0 e1 : String)
    (h0 : att1 0 = .fail e0) (h1 : att1 1 = .fail e1) (h2 : att1 2 = .ok) :
    ul_attempts att1 uid i data 0 3 =
      ([.post uid i data, .post uid i data, .post uid i data], .ok ()) := by
  unfold ul_attempts
  simp only [h0]
  unfold ul_attempts
  simp only [h1]
  unfold ul_attempts
  simp [h2]

theorem ul_attempts_three_fail (att1 : Nat → UlAttempt) (uid : String) (i : Nat)
    (data : List Nat) (e0 e1 e2 : String)
    (h0 : att1 0 = .fail e0) (h1 : att1 1 = .fail e1) (h2 : att1 2 = .fail e2) :
    ul_attempts att1 uid i data 0 3 =
      ([.post uid i data, .post uid i data, .post uid i data], .error e2) := by
  unfold ul_attempts
  simp only [h0]
  unfold ul_attempts
  simp only [h1]
  unfold ul_attempts
  simp [h2]

theorem ul_process_ok (S total : Nat) (uid : String) (content : List Nat)
    (att : Nat → Nat → UlAttempt) (i : Nat) (r : UlRun) (evs : List UlEvent)
    (hread : ¬ content.length < i * CHUNK_SIZE + ul_chunk_size S total i)
    (h : ul_attempts (att i) uid i
      ((content.drop (i * CHUNK_SIZE)).take (ul_chunk_size S total i)) 0 3 =
      (evs, .ok ())) :
    ul_process_chunk S total uid content att i r =
      (.ok (), { r with uploaded_size := r.uploaded_size + ul_chunk_size S total i,
                        trace := r.trace ++ evs }) := by
  unfold ul_process_chunk
  simp only [if_neg hread, h]

theorem ul_process_fail (S total : Nat) (uid : String) (content : List Nat)
    (att : Nat → Nat → UlAttempt) (i : Nat) (r : UlRun) (evs : List UlEvent) (e : String)
    (hread : ¬ content.length < i * CHUNK_SIZE + ul_chunk_size S total i)
    (h : ul_attempts (att i) uid i
      ((content.drop (i * CHUNK_SIZE)).take (ul_chunk_size S total i)) 0 3 =
      (evs, .error e)) :
    ul_process_chunk S total uid content att i r =
      (.error ("分片 " ++ toString i ++ " 上传失败: " ++ e),
       { r with status := .Error ("分片 " ++ toString i ++ " 上传失败: " ++ e),
                trace := r.trace ++ evs }) := by
  unfold ul_process_chunk
  simp only [if_neg hread, h]


theorem ul_chunk_size_eq (S i : Nat) (hS : 0 < S) (h53 : S ≤ 2 ^ 53)
    (hi : i < chunks_count S) :
    ul_chunk_size S (chunks_count S) i = chunk_len S (chunks_count S) i ∧
    i * CHUNK_SIZE + ul_chunk_size S (chunks_count S) i ≤ S := by
  have hcc := chunks_count_eq_ceil S hS h53
  obtain ⟨hb1, hb2, hb3⟩ := ceil_chunks_bounds S hS
  have hb1a : (chunks_count S - 1) * CHUNK_SIZE < S := by rw [hcc]; exact hb1
  have hb3a : 0 < chunks_count S := by rw [hcc]; exact hb3
  have h64 : S < 2 ^ 64 := by
    have hp : (2:Nat) ^ 53 < 2 ^ 64 := by norm_num
    omega
  have hC1 : 1 ≤ CHUNK_SIZE := by decide
  by_cases hlast : i = chunks_count S - 1
  · subst hlast
    have hend := chunk_range_end_final S (chunks_count S) hS h64
    have hle : (chunks_count S - 1) * CHUNK_SIZE ≤ S - 1 := by omega
    unfold ul_chunk_size chunk_len
    rw [hend, sub64_of_le (S - 1) ((chunks_count S - 1) * CHUNK_SIZE) hle (by omega) (by omega)]
    unfold add64
    rw [Nat.mod_eq_of_lt (by omega)]
    exact ⟨by omega, by omega⟩
  · have hnf : i + 1 < chunks_count S := by omega
    have hend := chunk_range_end_nonfinal S (chunks_count S) i hnf
    have hlen2 := chunk_len_nonfinal S (chunks_count S) i hnf
    have hmul : i * CHUNK_SIZE + CHUNK_SIZE = (i + 1) * CHUNK_SIZE := by ring
    have hi1 : (i + 1) * CHUNK_SIZE ≤ (chunks_count S - 1) * CHUNK_SIZE :=
      Nat.mul_le_mul_right _ (by omega)
    have hiCS : i * CHUNK_SIZE + CHUNK_SIZE ≤ S := by omega
    unfold ul_chunk_size
    rw [hend, sub64_of_le (i * CHUNK_SIZE + CHUNK_SIZE - 1) (i * CHUNK_SIZE) (by omega)
      (by omega) (by omega)]
    unfold add64
    rw [Nat.mod_eq_of_lt (by omega), hlen2]
    exact ⟨by omega, by omega⟩

theorem ul_loop_all_ok (S total : Nat) (uid : String) (content : List Nat)
    (uploaded : List Nat) (att : Nat → Nat → UlAttempt) (pausedAt : Nat → Bool)
    (pevs : Nat → List UlEvent) :
    ∀ (l : List Nat) (r : UlRun), ul_stop r.status = false →
    (∀ i ∈ l, uploaded.contains i = false → pausedAt i = false) →
    (∀ i ∈ l, uploaded.contains i = false →
      ¬ content.length < i * CHUNK_SIZE + ul_chunk_size S total i) →
    (∀ i ∈ l, uploaded.contains i = false →
      ul_attempts (att i) uid i
        ((content.drop (i * CHUNK_SIZE)).take (ul_chunk_size S total i)) 0 3 =
        (pevs i, .ok ())) →
    ul_loop S total uid content uploaded att pausedAt l r =
      (.ok .finished,
       { uploaded_size := r.uploaded_size +
           (l.map (fun i => if uploaded.contains i then 0 else ul_chunk_size S total i)).sum,
         status := r.status,
         trace := r.trace ++
           l.flatMap (fun i => if uploaded.contains i then [] else pevs i) })
  | [], r, hst, _, _, _ => by
    simp [ul_loop]
  | i :: rest, r, hst, hp, hrd, hok => by
    unfold ul_loop
    cases hc : uploaded.contains i with
    | true =>
      simp only [if_true]
      rw [ul_loop_all_ok S total uid content uploaded att pausedAt pevs rest r hst
        (fun j hj hcj => hp j (by simp [hj]) hcj)
        (fun j hj hcj => hrd j (by simp [hj]) hcj)
        (fun j hj hcj => hok j (by simp [hj]) hcj)]
      have hz : (if uploaded.contains i then (0:Nat) else ul_chunk_size S total i) = 0 := by
        rw [hc]
        rfl
      have hnil : (if uploaded.contains i then ([] : List UlEvent) else pevs i) = [] := by
        rw [hc]
        rfl
      simp only [List.map_cons, List.sum_cons, List.flatMap_cons, hz, hnil,
        List.nil_append, Nat.zero_add]
    | false =>
      simp only [Bool.false_eq_true, if_false, hst,
        hp i (by simp) hc,
        ul_process_ok S total uid content att i r (pevs i) (hrd i (by simp) hc)
          (hok i (by simp) hc)]
      rw [ul_loop_all_ok S total uid content uploaded att pausedAt pevs rest _ (by simpa using hst)
        (fun j hj hcj => hp j (by simp [hj]) hcj)
        (fun j hj hcj => hrd j (by simp [hj]) hcj)
        (fun j hj hcj => hok j (by simp [hj]) hcj)]
      have hz : (if uploaded.contains i then (0:Nat) else ul_chunk_size S total i)
          = ul_chunk_size S total i := by
        rw [hc]
        rfl
      have hnil : (if uploaded.contains i then ([] : List UlEvent) else pevs i) = pevs i := by
        rw [hc]
        rfl
      simp only [List.map_cons, List.sum_cons, List.flatMap_cons, hz, hnil]
      simp [Nat.add_assoc]

theorem ul_loop_append (S total : Nat) (uid : String) (content : List Nat)
    (uploaded : List Nat) (att : Nat → Nat → UlAttempt) (pausedAt : Nat → Bool) :
    ∀ (l1 l2 : List Nat) (r : UlRun),
    ul_loop S total uid content uploaded att pausedAt (l1 ++ l2) r =
      match ul_loop S total uid content uploaded att pausedAt l1 r with
      | (.ok .finished, r1) => ul_loop S total uid content uploaded att pausedAt l2 r1
      | other => other
  | [], l2, r => by simp [ul_loop]
  | i :: rest, l2, r => by
    show ul_loop S total uid content uploaded att pausedAt (i :: (rest ++ l2)) r = _
    cases hc : uploaded.contains i with
    | true =>
      simp only [ul_loop, hc, if_true]
      exact ul_loop_append S total uid content uploaded att pausedAt rest l2 r
    | false =>
      cases hstop : ul_stop r.status with
      | true => simp only [ul_loop, hc, hstop]; simp
      | false =>
        cases hpz : pausedAt i with
        | true => simp only [ul_loop, hc, hstop, hpz]; simp
        | false =>
          rcases hpr : ul_process_chunk S total uid content att i r with ⟨res, r1⟩
          cases res with
          | ok u =>
            simp only [ul_loop, hc, hstop, hpz, hpr, Bool.false_eq_true, if_false]
            exact ul_loop_append S total uid content uploaded att pausedAt rest l2 r1
          | error e =>
            simp only [ul_loop, hc, hstop, hpz, hpr, Bool.false_eq_true, if_false]

theorem ul_loop_pause_head (S total : Nat) (uid : String) (content : List Nat)
    (uploaded : List Nat) (att : Nat → Nat → UlAttempt) (pausedAt : Nat → Bool)
    (i : Nat) (rest : List Nat) (r : UlRun)
    (hc : uploaded.contains i = false)
    (hst : ul_stop r.status = false) (hp : pausedAt i = true) :
    ul_loop S total uid content uploaded att pausedAt (i :: rest) r =
      (.ok .interrupted, r) := by
  unfold ul_loop
  simp only [hc, hst, hp, Bool.false_eq_true, if_false, if_true]

theorem ul_loop_fail_head (S total : Nat) (uid : String) (content : List Nat)
    (uploaded : List Nat) (att : Nat → Nat → UlAttempt) (pausedAt : Nat → Bool)
    (i : Nat) (rest : List Nat) (r : UlRun) (evs : List UlEvent) (e : String)
    (hc : uploaded.contains i = false)
    (hst : ul_stop r.status = false) (hp : pausedAt i = false)
    (hread : ¬ content.length < i * CHUNK_SIZE + ul_chunk_size S total i)
    (h : ul_attempts (att i) uid i
      ((content.drop (i * CHUNK_SIZE)).take (ul_chunk_size S total i)) 0 3 =
      (evs, .error e)) :
    ul_loop S total uid content uploaded att pausedAt (i :: rest) r =
      (.error ("分片 " ++ toString i ++ " 上传失败: " ++ e),
       { r with status := .Error ("分片 " ++ toString i ++ " 上传失败: " ++ e),
                trace := r.trace ++ evs }) := by
  unfold ul_loop
  simp only [hc, hst, hp, Bool.false_eq_true, if_false,
    ul_process_fail S total uid content att i r evs e hread h]

theorem postCount_append (t1 t2 : List UlEvent) (i : Nat) :
    postCount (t1 ++ t2) i = postCount t1 i + postCount t2 i := by
  unfold postCount
  exact List.countP_append _ _ _

theorem postCount_flatMap (f : Nat → List UlEvent) (i : Nat) :
    ∀ l : List Nat, postCount (l.flatMap f) i = (l.map (fun j => postCount (f j) i)).sum
  | [] => by simp [postCount]
  | j :: rest => by
    simp only [List.flatMap_cons, List.map_cons, List.sum_cons]
    rw [postCount_append, postCount_flatMap f i rest]

theorem finishCount_append (t1 t2 : List UlEvent) :
    finishCount (t1 ++ t2) = finishCount t1 + finishCount t2 := by
  unfold finishCount
  exact List.countP_append _ _ _


theorem postCount_single_ne (uid : String) (j : Nat) (data : List Nat) (i : Nat)
    (h : j ≠ i) : postCount [UlEvent.post uid j data] i = 0 := by
  unfold postCount
  simp [List.countP_cons, h]

theorem postCount_single_eq (uid : String) (i : Nat) (data : List Nat) :
    postCount [UlEvent.post uid i data] i = 1 := by
  unfold postCount
  simp [List.countP_cons]

theorem finishCount_flatMap (f : Nat → List UlEvent) :
    ∀ l : List Nat, finishCount (l.flatMap f) = (l.map (fun j => finishCount (f j))).sum
  | [] => by simp [finishCount]
  | j :: rest => by
    simp only [List.flatMap_cons, List.map_cons, List.sum_cons]
    rw [finishCount_append, finishCount_flatMap f rest]

/-- C7: resuming an upload skips every chunk the remote status query already
acknowledged (no POST for it), posts each remaining chunk exactly once with
the exact byte slice, and calls /upload/finish exactly once at the end. -/
theorem upload_resume_skip (S : Nat) (uid filename : String) (target : Option String)
    (uploaded content : List Nat) (att : Nat → Nat → UlAttempt) (fr : String)
    (hS : 0 < S) (h53 : S ≤ 2 ^ 53) (hcl : content.length = S)
    (hatt : ∀ i k, att i k = .ok) :
    (upload_start S uid filename target uploaded content att noPause (.ok fr)).1 = .ok () ∧
    (upload_start S uid filename target uploaded content att noPause (.ok fr)).2.status
      = .Completed ∧
    (upload_start S uid filename target uploaded content att noPause (.ok fr)).2.trace =
      [UlEvent.statusQuery] ++ (List.range (chunks_count S)).flatMap (fun i =>
        if uploaded.contains i then [] else
          [UlEvent.post uid i ((content.drop (i * CHUNK_SIZE)).take
            (ul_chunk_size S (chunks_count S) i))]) ++
        [UlEvent.finish uid filename (chunks_count S) target] ∧
    (∀ i, uploaded.contains i = true →
      postCount (upload_start S uid filename target uploaded content att noPause
        (.ok fr)).2.trace i = 0) ∧
    (∀ i, i < chunks_count S → uploaded.contains i = false →
      postCount (upload_start S uid filename target uploaded content att noPause
        (.ok fr)).2.trace i = 1) ∧
    finishCount (upload_start S uid filename target uploaded content att noPause
      (.ok fr)).2.trace = 1 := by
  have hrd : ∀ i ∈ List.range (chunks_count S), uploaded.contains i = false →
      ¬ content.length < i * CHUNK_SIZE + ul_chunk_size S (chunks_count S) i := by
    intro i hi _
    have hilt : i < chunks_count S := List.mem_range.mp hi
    have := (ul_chunk_size_eq S i hS h53 hilt).2
    omega
  have hok : ∀ i ∈ List.range (chunks_count S), uploaded.contains i = false →
      ul_attempts (att i) uid i
        ((content.drop (i * CHUNK_SIZE)).take (ul_chunk_size S (chunks_count S) i)) 0 3 =
        ([UlEvent.post uid i ((content.drop (i * CHUNK_SIZE)).take
          (ul_chunk_size S (chunks_count S) i))], .ok ()) := by
    intro i _ _
    exact ul_attempts_first_ok (att i) uid i _ (hatt i 0)
  have hloop := ul_loop_all_ok S (chunks_count S) uid content uploaded att noPause
    (fun i => [UlEvent.post uid i ((content.drop (i * CHUNK_SIZE)).take
      (ul_chunk_size S (chunks_count S) i))])
    (List.range (chunks_count S))
    { uploaded_size := already_uploaded_init S (chunks_count S) uploaded,
      status := .Uploading, trace := [UlEvent.statusQuery] }
    rfl (fun _ _ _ => rfl) hrd hok
  have hbase : (upload_start S uid filename target uploaded content att noPause (.ok fr)).1
        = .ok () ∧
      (upload_start S uid filename target uploaded content att noPause (.ok fr)).2.status
        = .Completed ∧
      (upload_start S uid filename target uploaded content att noPause (.ok fr)).2.trace =
      [UlEvent.statusQuery] ++ (List.range (chunks_count S)).flatMap (fun i =>
        if uploaded.contains i then [] else
          [UlEvent.post uid i ((content.drop (i * CHUNK_SIZE)).take
            (ul_chunk_size S (chunks_count S) i))]) ++
        [UlEvent.finish uid filename (chunks_count S) target] := by
    unfold upload_start
    simp only [hloop]
    refine ⟨?_, ?_, ?_⟩ <;> simp
  have htrace := hbase.2.2
  refine ⟨hbase.1, hbase.2.1, htrace, ?_, ?_, ?_⟩
  · intro i hci
    rw [htrace, postCount_append, postCount_append, postCount_flatMap]
    have h1 : postCount [UlEvent.statusQuery] i = 0 := by
      unfold postCount
      simp [List.countP_cons]
    have h2 : postCount [UlEvent.finish uid filename (chunks_count S) target] i = 0 := by
      unfold postCount
      simp [List.countP_cons]
    have hz : ((List.range (chunks_count S)).map (fun j => postCount
        (if uploaded.contains j then [] else
          [UlEvent.post uid j ((content.drop (j * CHUNK_SIZE)).take
            (ul_chunk_size S (chunks_count S) j))]) i)).sum = 0 := by
      apply sum_map_all_zero
      intro j _
      by_cases hj : j = i
      · subst hj
        rw [hci]
        simp only [if_true]
        unfold postCount
        simp
      · by_cases hcj : uploaded.contains j
        · rw [hcj]
          simp only [if_true]
          unfold postCount
          simp
        · rw [if_neg hcj]
          exact postCount_single_ne uid j _ i hj
    rw [h1, h2, hz]
  · intro i hilt hci
    rw [htrace, postCount_append, postCount_append, postCount_flatMap]
    have h1 : postCount [UlEvent.statusQuery] i = 0 := by
      unfold postCount
      simp [List.countP_cons]
    have h2 : postCount [UlEvent.finish uid filename (chunks_count S) target] i = 0 := by
      unfold postCount
      simp [List.countP_cons]
    have hmap : ∀ j ∈ List.range (chunks_count S), postCount
        (if uploaded.contains j then [] else
          [UlEvent.post uid j ((content.drop (j * CHUNK_SIZE)).take
            (ul_chunk_size S (chunks_count S) j))]) i = (if j = i then 1 else 0) := by
      intro j _
      by_cases hj : j = i
      · subst hj
        rw [hci, if_pos rfl]
        simp only [Bool.false_eq_true, if_false]
        exact postCount_single_eq uid j _
      · rw [if_neg hj]
        by_cases hcj : uploaded.contains j
        · rw [hcj]
          simp only [if_true]
          unfold postCount
          simp
        · rw [if_neg hcj]
          exact postCount_single_ne uid j _ i hj
    rw [List.map_congr_left hmap, h1, h2]
    have := sum_map_ite_single 1 i (chunks_count S) 0 (by omega) (by omega)
    rw [List.range_eq_range']
    omega
  · rw [htrace, finishCount_append, finishCount_append, finishCount_flatMap]
    have h1 : finishCount [UlEvent.statusQuery] = 0 := by
      unfold finishCount
      simp [List.countP_cons]
    have h2 : finishCount [UlEvent.finish uid filename (chunks_count S) target] = 1 := by
      unfold finishCount
      simp [List.countP_cons]
    have hz : ((List.range (chunks_count S)).map (fun j => finishCount
        (if uploaded.contains j then [] else
          [UlEvent.post uid j ((content.drop (j * CHUNK_SIZE)).take
            (ul_chunk_size S (chunks_count S) j))]))).sum = 0 := by
      apply sum_map_all_zero
      intro j _
      by_cases hcj : uploaded.contains j
      · rw [hcj]
        simp only [if_true]
        unfold finishCount
        simp
      · rw [if_neg hcj]
        unfold finishCount
        simp [List.countP_cons]
    rw [h1, h2, hz]


/-! C4 upload halves and C8 upload half -/

theorem upload_retry_third_ok (S i : Nat) (uid filename : String) (target : Option String)
    (content : List Nat) (att : Nat → Nat → UlAttempt) (fr e0 e1 : String)
    (hS : 0 < S) (h53 : S ≤ 2 ^ 53) (hcl : content.length = S) (hi : i < chunks_count S)
    (hf0 : att i 0 = .fail e0) (hf1 : att i 1 = .fail e1) (hs2 : att i 2 = .ok)
    (hok : ∀ j, j ≠ i → att j 0 = .ok) :
    (upload_start S uid filename target [] content att noPause (.ok fr)).1 = .ok () ∧
    (upload_start S uid filename target [] content att noPause (.ok fr)).2.status
      = .Completed ∧
    postCount (upload_start S uid filename target [] content att noPause
      (.ok fr)).2.trace i = 3 := by
  have hrd : ∀ j ∈ List.range (chunks_count S), ([] : List Nat).contains j = false →
      ¬ content.length < j * CHUNK_SIZE + ul_chunk_size S (chunks_count S) j := by
    intro j hj _
    have hjlt : j < chunks_count S := List.mem_range.mp hj
    have := (ul_chunk_size_eq S j hS h53 hjlt).2
    omega
  have hok_all : ∀ j ∈ List.range (chunks_count S), ([] : List Nat).contains j = false →
      ul_attempts (att j) uid j
        ((content.drop (j * CHUNK_SIZE)).take (ul_chunk_size S (chunks_count S) j)) 0 3 =
        ((if j = i
          then [UlEvent.post uid j ((content.drop (j * CHUNK_SIZE)).take
                  (ul_chunk_size S (chunks_count S) j)),
                UlEvent.post uid j ((content.drop (j * CHUNK_SIZE)).take
                  (ul_chunk_size S (chunks_count S) j)),
                UlEvent.post uid j ((content.drop (j * CHUNK_SIZE)).take
                  (ul_chunk_size S (chunks_count S) j))]
          else [UlEvent.post uid j ((content.drop (j * CHUNK_SIZE)).take
                  (ul_chunk_size S (chunks_count S) j))]), .ok ()) := by
    intro j _ _
    by_cases hj : j = i
    · subst hj
      rw [if_pos rfl]
      exact ul_attempts_third_ok (att j) uid j _ e0 e1 hf0 hf1 hs2
    · rw [if_neg hj]
      exact ul_attempts_first_ok (att j) uid j _ (hok j hj)
  have hloop := ul_loop_all_ok S (chunks_count S) uid content [] att noPause
    (fun j => if j = i
      then [UlEvent.post uid j ((content.drop (j * CHUNK_SIZE)).take
              (ul_chunk_size S (chunks_count S) j)),
            UlEvent.post uid j ((content.drop (j * CHUNK_SIZE)).take
              (ul_chunk_size S (chunks_count S) j)),
            UlEvent.post uid j ((content.drop (j * CHUNK_SIZE)).take
              (ul_chunk_size S (chunks_count S) j))]
      else [UlEvent.post uid j ((content.drop (j * CHUNK_SIZE)).take
              (ul_chunk_size S (chunks_count S) j))])
    (List.range (chunks_count S))
    { uploaded_size := already_uploaded_init S (chunks_count S) [],
      status := .Uploading, trace := [UlEvent.statusQuery] }
    rfl (fun _ _ _ => rfl) hrd hok_all
  have hbase : (upload_start S uid filename target [] content att noPause (.ok fr)).1
        = .ok () ∧
      (upload_start S uid filename target [] content att noPause (.ok fr)).2.status
        = .Completed ∧
      (upload_start S uid filename target [] content att noPause (.ok fr)).2.trace =
        [UlEvent.statusQuery] ++ (List.range (chunks_count S)).flatMap (fun j =>
          if j = i
          then [UlEvent.post uid j ((content.drop (j * CHUNK_SIZE)).take
                  (ul_chunk_size S (chunks_count S) j)),
                UlEvent.post uid j ((content.drop (j * CHUNK_SIZE)).take
                  (ul_chunk_size S (chunks_count S) j)),
                UlEvent.post uid j ((content.drop (j * CHUNK_SIZE)).take
                  (ul_chunk_size S (chunks_count S) j))]
          else [UlEvent.post uid j ((content.drop (j * CHUNK_SIZE)).take
                  (ul_chunk_size S (chunks_count S) j))]) ++
        [UlEvent.finish uid filename (chunks_count S) target] := by
    unfold upload_start
    simp only [hloop]
    refine ⟨?_, ?_, ?_⟩ <;> simp
  refine ⟨hbase.1, hbase.2.1, ?_⟩
  rw [hbase.2.2, postCount_append, postCount_append, postCount_flatMap]
  have h1 : postCount [UlEvent.statusQuery] i = 0 := by
    unfold postCount
    simp [List.countP_cons]
  have h2 : postCount [UlEvent.finish uid filename (chunks_count S) target] i = 0 := by
    unfold postCount
    simp [List.countP_cons]
  have hmap : ∀ j ∈ List.range (chunks_count S), postCount
      (if j = i
        then [UlEvent.post uid j ((content.drop (j * CHUNK_SIZE)).take
                (ul_chunk_size S (chunks_count S) j)),
              UlEvent.post uid j ((content.drop (j * CHUNK_SIZE)).take
                (ul_chunk_size S (chunks_count S) j)),
              UlEvent.post uid j ((content.drop (j * CHUNK_SIZE)).take
                (ul_chunk_size S (chunks_count S) j))]
        else [UlEvent.post uid j ((content.drop (j * CHUNK_SIZE)).take
                (ul_chunk_size S (chunks_count S) j))]) i = (if j = i then 3 else 0) := by
    intro j _
    by_cases hj : j = i
    · subst hj
      rw [if_pos rfl, if_pos rfl]
      unfold postCount
      simp [List.countP_cons]
    · rw [if_neg hj, if_neg hj]
      exact postCount_single_ne uid j _ i hj
  rw [List.map_congr_left hmap, h1, h2]
  have := sum_map_ite_single 3 i (chunks_count S) 0 (by omega) (by omega)
  rw [List.range_eq_range']
  omega

theorem upload_retry_exhausted (S i : Nat) (uid filename : String) (target : Option String)
    (content : List Nat) (att : Nat → Nat → UlAttempt) (fr e0 e1 e2 : String)
    (hS : 0 < S) (h53 : S ≤ 2 ^ 53) (hcl : content.length = S) (hi : i < chunks_count S)
    (hf0 : att i 0 = .fail e0) (hf1 : att i 1 = .fail e1) (hf2 : att i 2 = .fail e2)
    (hok : ∀ j, j ≠ i → att j 0 = .ok) :
    (upload_start S uid filename target [] content att noPause (.ok fr)).1 =
      .error ("分片 " ++ toString i ++ " 上传失败: " ++ e2) ∧
    (upload_start S uid filename target [] content att noPause (.ok fr)).2.status =
      .Error ("分片 " ++ toString i ++ " 上传失败: " ++ e2) ∧
    postCount (upload_start S uid filename target [] content att noPause
      (.ok fr)).2.trace i = 3 ∧
    (∀ j, i < j → postCount (upload_start S uid filename target [] content att noPause
      (.ok fr)).2.trace j = 0) ∧
    finishCount (upload_start S uid filename target [] content att noPause
      (.ok fr)).2.trace = 0 := by
  obtain ⟨m, hm⟩ : ∃ m, chunks_count S - i = m + 1 := ⟨chunks_count S - i - 1, by omega⟩
  have hsplit : List.range (chunks_count S) =
      List.range' 0 i ++ (i :: List.range' (i + 1) m) := by
    rw [List.range_eq_range']
    have h1 := List.range'_append 0 i (m + 1) 1
    have h3 : (0 : Nat) + 1 * i = i := by omega
    rw [h3] at h1
    have h4 : m + 1 + i = chunks_count S := by omega
    rw [h4] at h1
    rw [← h1, List.range'_succ]
  have hrd : ∀ j, j < chunks_count S →
      ¬ content.length < j * CHUNK_SIZE + ul_chunk_size S (chunks_count S) j := by
    intro j hjlt
    have := (ul_chunk_size_eq S j hS h53 hjlt).2
    omega
  have hok_pre : ∀ j ∈ List.range' 0 i, ([] : List Nat).contains j = false →
      ul_attempts (att j) uid j
        ((content.drop (j * CHUNK_SIZE)).take (ul_chunk_size S (chunks_count S) j)) 0 3 =
        ([UlEvent.post uid j ((content.drop (j * CHUNK_SIZE)).take
            (ul_chunk_size S (chunks_count S) j))], .ok ()) := by
    intro j hj _
    have hjlt := List.mem_range'_1.mp hj
    exact ul_attempts_first_ok (att j) uid j _ (hok j (by omega))
  have hrd_pre : ∀ j ∈ List.range' 0 i, ([] : List Nat).contains j = false →
      ¬ content.length < j * CHUNK_SIZE + ul_chunk_size S (chunks_count S) j := by
    intro j hj _
    have hjlt := List.mem_range'_1.mp hj
    exact hrd j (by omega)
  have hloop1 := ul_loop_all_ok S (chunks_count S) uid content [] att noPause
    (fun j => [UlEvent.post uid j ((content.drop (j * CHUNK_SIZE)).take
      (ul_chunk_size S (chunks_count S) j))])
    (List.range' 0 i)
    { uploaded_size := already_uploaded_init S (chunks_count S) [],
      status := .Uploading, trace := [UlEvent.statusQuery] }
    rfl (fun _ _ _ => rfl) hrd_pre hok_pre
  have hfail := ul_attempts_three_fail (att i) uid i
    ((content.drop (i * CHUNK_SIZE)).take (ul_chunk_size S (chunks_count S) i))
    e0 e1 e2 hf0 hf1 hf2
  have hloop2 := ul_loop_fail_head S (chunks_count S) uid content [] att noPause i
    (List.range' (i + 1) m)
    { uploaded_size := already_uploaded_init S (chunks_count S) [] +
        ((List.range' 0 i).map (fun j => if ([] : List Nat).contains j then 0
          else ul_chunk_size S (chunks_count S) j)).sum,
      status := UploadStatus.Uploading,
      trace := [UlEvent.statusQuery] ++ (List.range' 0 i).flatMap (fun j =>
        if ([] : List Nat).contains j then [] else
          [UlEvent.post uid j ((content.drop (j * CHUNK_SIZE)).take
            (ul_chunk_size S (chunks_count S) j))]) }
    _ e2 rfl rfl rfl (hrd i hi) hfail
  have hbase : (upload_start S uid filename target [] content att noPause (.ok fr)).1 =
        .error ("分片 " ++ toString i ++ " 上传失败: " ++ e2) ∧
      (upload_start S uid filename target [] content att noPause (.ok fr)).2.status =
        .Error ("分片 " ++ toString i ++ " 上传失败: " ++ e2) ∧
      (upload_start S uid filename target [] content att noPause (.ok fr)).2.trace =
        [UlEvent.statusQuery] ++ ((List.range' 0 i).flatMap (fun j =>
          [UlEvent.post uid j ((content.drop (j * CHUNK_SIZE)).take
            (ul_chunk_size S (chunks_count S) j))]) ++
        [UlEvent.post uid i ((content.drop (i * CHUNK_SIZE)).take
            (ul_chunk_size S (chunks_count S) i)),
         UlEvent.post uid i ((content.drop (i * CHUNK_SIZE)).take
            (ul_chunk_size S (chunks_count S) i)),
         UlEvent.post uid i ((content.drop (i * CHUNK_SIZE)).take
            (ul_chunk_size S (chunks_count S) i))]) := by
    unfold upload_start
    simp only [hsplit, ul_loop_append, hloop1, hloop2]
    refine ⟨?_, ?_, ?_⟩ <;> simp
  refine ⟨hbase.1, hbase.2.1, ?_, ?_, ?_⟩
  · rw [hbase.2.2, postCount_append, postCount_append, postCount_flatMap]
    have h1 : postCount [UlEvent.statusQuery] i = 0 := by
      unfold postCount
      simp [List.countP_cons]
    have hz : ((List.range' 0 i).map (fun j => postCount
        [UlEvent.post uid j ((content.drop (j * CHUNK_SIZE)).take
          (ul_chunk_size S (chunks_count S) j))] i)).sum = 0 := by
      apply sum_map_all_zero
      intro j hj
      have := List.mem_range'_1.mp hj
      exact postCount_single_ne uid j _ i (by omega)
    rw [h1, hz]
    unfold postCount
    simp [List.countP_cons]
  · intro j hj
    rw [hbase.2.2, postCount_append, postCount_append, postCount_flatMap]
    have h1 : postCount [UlEvent.statusQuery] j = 0 := by
      unfold postCount
      simp [List.countP_cons]
    have hz : ((List.range' 0 i).map (fun j2 => postCount
        [UlEvent.post uid j2 ((content.drop (j2 * CHUNK_SIZE)).take
          (ul_chunk_size S (chunks_count S) j2))] j)).sum = 0 := by
      apply sum_map_all_zero
      intro j2 hj2
      have := List.mem_range'_1.mp hj2
      exact postCount_single_ne uid j2 _ j (by omega)
    rw [h1, hz]
    unfold postCount
    simp [List.countP_cons, Nat.ne_of_lt hj]
  · rw [hbase.2.2, finishCount_append, finishCount_append, finishCount_flatMap]
    have h1 : finishCount [UlEvent.statusQuery] = 0 := by
      unfold finishCount
      simp [List.countP_cons]
    have hz : ((List.range' 0 i).map (fun j => finishCount
        [UlEvent.post uid j ((content.drop (j * CHUNK_SIZE)).take
          (ul_chunk_size S (chunks_count S) j))])).sum = 0 := by
      apply sum_map_all_zero
      intro j _
      unfold finishCount
      simp [List.countP_cons]
    rw [h1, hz]
    unfold finishCount
    simp [List.countP_cons]

theorem upload_pause (S i : Nat) (uid filename : String) (target : Option String)
    (content : List Nat) (att : Nat → Nat → UlAttempt) (pausedAt : Nat → Bool) (fr : String)
    (hS : 0 < S) (h53 : S ≤ 2 ^ 53) (hcl : content.length = S) (hi : i < chunks_count S)
    (hplt : ∀ j, j < i → pausedAt j = false) (hp : pausedAt i = true)
    (hatt : ∀ j k, att j k = .ok) :
    (upload_start S uid filename target [] content att pausedAt (.ok fr)).1 = .ok () ∧
    (∀ j, i ≤ j → postCount (upload_start S uid filename target [] content att pausedAt
      (.ok fr)).2.trace j = 0) ∧
    finishCount (upload_start S uid filename target [] content att pausedAt
      (.ok fr)).2.trace = 0 := by
  obtain ⟨m, hm⟩ : ∃ m, chunks_count S - i = m + 1 := ⟨chunks_count S - i - 1, by omega⟩
  have hsplit : List.range (chunks_count S) =
      List.range' 0 i ++ (i :: List.range' (i + 1) m) := by
    rw [List.range_eq_range']
    have h1 := List.range'_append 0 i (m + 1) 1
    have h3 : (0 : Nat) + 1 * i = i := by omega
    rw [h3] at h1
    have h4 : m + 1 + i = chunks_count S := by omega
    rw [h4] at h1
    rw [← h1, List.range'_succ]
  have hok_pre : ∀ j ∈ List.range' 0 i, ([] : List Nat).contains j = false →
      ul_attempts (att j) uid j
        ((content.drop (j * CHUNK_SIZE)).take (ul_chunk_size S (chunks_count S) j)) 0 3 =
        ([UlEvent.post uid j ((content.drop (j * CHUNK_SIZE)).take
            (ul_chunk_size S (chunks_count S) j))], .ok ()) := by
    intro j _ _
    exact ul_attempts_first_ok (att j) uid j _ (hatt j 0)
  have hrd_pre : ∀ j ∈ List.range' 0 i, ([] : List Nat).contains j = false →
      ¬ content.length < j * CHUNK_SIZE + ul_chunk_size S (chunks_count S) j := by
    intro j hj _
    have hj2 := List.mem_range'_1.mp hj
    have := (ul_chunk_size_eq S j hS h53 (by omega)).2
    omega
  have hp_pre : ∀ j ∈ List.range' 0 i, ([] : List Nat).contains j = false →
      pausedAt j = false := by
    intro j hj _
    have := List.mem_range'_1.mp hj
    exact hplt j (by omega)
  have hloop1 := ul_loop_all_ok S (chunks_count S) uid content [] att pausedAt
    (fun j => [UlEvent.post uid j ((content.drop (j * CHUNK_SIZE)).take
      (ul_chunk_size S (chunks_count S) j))])
    (List.range' 0 i)
    { uploaded_size := already_uploaded_init S (chunks_count S) [],
      status := .Uploading, trace := [UlEvent.statusQuery] }
    rfl hp_pre hrd_pre hok_pre
  have hloop2 := ul_loop_pause_head S (chunks_count S) uid content [] att pausedAt i
    (List.range' (i + 1) m)
    { uploaded_size := already_uploaded_init S (chunks_count S) [] +
        ((List.range' 0 i).map (fun j => if ([] : List Nat).contains j then 0
          else ul_chunk_size S (chunks_count S) j)).sum,
      status := UploadStatus.Uploading,
      trace := [UlEvent.statusQuery] ++ (List.range' 0 i).flatMap (fun j =>
        if ([] : List Nat).contains j then [] else
          [UlEvent.post uid j ((content.drop (j * CHUNK_SIZE)).take
            (ul_chunk_size S (chunks_count S) j))]) }
    rfl rfl hp
  have hbase : (upload_start S uid filename target [] content att pausedAt (.ok fr)).1
        = .ok () ∧
      (upload_start S uid filename target [] content att pausedAt (.ok fr)).2.trace =
        [UlEvent.statusQuery] ++ (List.range' 0 i).flatMap (fun j =>
          [UlEvent.post uid j ((content.drop (j * CHUNK_SIZE)).take
            (ul_chunk_size S (chunks_count S) j))]) := by
    unfold upload_start
    simp only [hsplit, ul_loop_append, hloop1, hloop2]
    refine ⟨?_, ?_⟩ <;> simp
  refine ⟨hbase.1, ?_, ?_⟩
  · intro j hj
    rw [hbase.2, postCount_append, postCount_flatMap]
    have h1 : postCount [UlEvent.statusQuery] j = 0 := by
      unfold postCount
      simp [List.countP_cons]
    have hz : ((List.range' 0 i).map (fun j2 => postCount
        [UlEvent.post uid j2 ((content.drop (j2 * CHUNK_SIZE)).take
          (ul_chunk_size S (chunks_count S) j2))] j)).sum = 0 := by
      apply sum_map_all_zero
      intro j2 hj2
      have := List.mem_range'_1.mp hj2
      exact postCount_single_ne uid j2 _ j (by omega)
    rw [h1, hz]
  · rw [hbase.2, finishCount_append, finishCount_flatMap]
    have h1 : finishCount [UlEvent.statusQuery] = 0 := by
      unfold finishCount
      simp [List.countP_cons]
    have hz : ((List.range' 0 i).map (fun j => finishCount
        [UlEvent.post uid j ((content.drop (j * CHUNK_SIZE)).take
          (ul_chunk_size S (chunks_count S) j))])).sum = 0 := by
      apply sum_map_all_zero
      intro j _
      unfold finishCount
      simp [List.countP_cons]
    rw [h1, hz]


/-- C4: per-chunk retry bound of 3 attempts, for download and upload. -/
theorem transfer_retry_bound :
    (∀ (S i : Nat) (att : Nat → Nat → ChunkAttempt) (d : Nat → List Nat) (e0 e1 : String),
      0 < S → S ≤ 2 ^ 53 → i < chunks_count S →
      att i 0 = ChunkAttempt.fetchFail e0 → att i 1 = ChunkAttempt.fetchFail e1 →
      att i 2 = ChunkAttempt.ok (d i) →
      (∀ j, j ≠ i → att j 0 = ChunkAttempt.ok (d j)) →
      (∀ j, (d j).length = chunk_len S (chunks_count S) j) →
      (download_start S none att noPause).1 = .ok () ∧
      (download_start S none att noPause).2.status = .Completed ∧
      reqCount (download_start S none att noPause).2.trace i = 3) ∧
    (∀ (S i : Nat) (att : Nat → Nat → ChunkAttempt) (d : Nat → List Nat)
      (e0 e1 e2 : String), i < chunks_count S →
      att i 0 = ChunkAttempt.fetchFail e0 → att i 1 = ChunkAttempt.fetchFail e1 →
      att i 2 = ChunkAttempt.fetchFail e2 →
      (∀ j, j ≠ i → att j 0 = ChunkAttempt.ok (d j)) →
      (download_start S none att noPause).1 =
        .error ("分片 " ++ toString i ++ " 下载失败: " ++ e2) ∧
      (download_start S none att noPause).2.status =
        .Error ("分片 " ++ toString i ++ " 下载失败: " ++ e2) ∧
      reqCount (download_start S none att noPause).2.trace i = 3 ∧
      (∀ j, i < j → reqCount (download_start S none att noPause).2.trace j = 0)) ∧
    (∀ (S i : Nat) (uid filename : String) (target : Option String) (content : List Nat)
      (att : Nat → Nat → UlAttempt) (fr e0 e1 : String), 0 < S → S ≤ 2 ^ 53 →
      content.length = S → i < chunks_count S →
      att i 0 = UlAttempt.fail e0 → att i 1 = UlAttempt.fail e1 →
      att i 2 = UlAttempt.ok →
      (∀ j, j ≠ i → att j 0 = UlAttempt.ok) →
      (upload_start S uid filename target [] content att noPause (.ok fr)).1 = .ok () ∧
      (upload_start S uid filename target [] content att noPause (.ok fr)).2.status
        = .Completed ∧
      postCount (upload_start S uid filename target [] content att noPause
        (.ok fr)).2.trace i = 3) ∧
    (∀ (S i : Nat) (uid filename : String) (target : Option String) (content : List Nat)
      (att : Nat → Nat → UlAttempt) (fr e0 e1 e2 : String), 0 < S → S ≤ 2 ^ 53 →
      content.length = S → i < chunks_count S →
      att i 0 = UlAttempt.fail e0 → att i 1 = UlAttempt.fail e1 →
      att i 2 = UlAttempt.fail e2 →
      (∀ j, j ≠ i → att j 0 = UlAttempt.ok) →
      (upload_start S uid filename target [] content att noPause (.ok fr)).1 =
        .error ("分片 " ++ toString i ++ " 上传失败: " ++ e2) ∧
      (upload_start S uid filename target [] content att noPause (.ok fr)).2.status =
        .Error ("分片 " ++ toString i ++ " 上传失败: " ++ e2) ∧
      postCount (upload_start S uid filename target [] content att noPause
        (.ok fr)).2.trace i = 3 ∧
      (∀ j, i < j → postCount (upload_start S uid filename target [] content att noPause
        (.ok fr)).2.trace j = 0)) := by
  refine ⟨?_, ?_, ?_, ?_⟩
  · intro S i att d e0 e1 hS h53 hi hf0 hf1 hs2 hok hlen
    exact download_retry_third_ok S i att d e0 e1 hS h53 hi hf0 hf1 hs2 hok hlen
  · intro S i att d e0 e1 e2 hi hf0 hf1 hf2 hok
    exact download_retry_exhausted S i att d e0 e1 e2 hi hf0 hf1 hf2 hok
  · intro S i uid filename target content att fr e0 e1 hS h53 hcl hi hf0 hf1 hs2 hok
    exact (upload_retry_third_ok S i uid filename target content att fr e0 e1
      hS h53 hcl hi hf0 hf1 hs2 hok)
  · intro S i uid filename target content att fr e0 e1 e2 hS h53 hcl hi hf0 hf1 hf2 hok
    obtain ⟨h1, h2, h3, h4, _⟩ := upload_retry_exhausted S i uid filename target content
      att fr e0 e1 e2 hS h53 hcl hi hf0 hf1 hf2 hok
    exact ⟨h1, h2, h3, h4⟩

theorem transfer_retry_bound_witness :
    ((download_start 5 none attDlRetry noPause).1 = .ok () ∧
      (download_start 5 none attDlRetry noPause).2.status = .Completed ∧
      reqCount (download_start 5 none attDlRetry noPause).2.trace 0 = 3) ∧
    ((download_start 5 none attDlFail noPause).1 =
        .error ("分片 " ++ toString 0 ++ " 下载失败: " ++ "x") ∧
      reqCount (download_start 5 none attDlFail noPause).2.trace 0 = 3) ∧
    ((upload_start 5 "u" "f" none [] contentW attUlRetry noPause (.ok "r")).1 = .ok () ∧
      (upload_start 5 "u" "f" none [] contentW attUlRetry noPause
        (.ok "r")).2.status = .Completed ∧
      postCount (upload_start 5 "u" "f" none [] contentW attUlRetry noPause
        (.ok "r")).2.trace 0 = 3) ∧
    ((upload_start 5 "u" "f" none [] contentW attUlFail noPause (.ok "r")).1 =
        .error ("分片 " ++ toString 0 ++ " 上传失败: " ++ "x") ∧
      postCount (upload_start 5 "u" "f" none [] contentW attUlFail noPause
        (.ok "r")).2.trace 0 = 3) := by
  have hc1 : chunks_count 5 = 1 := by decide
  have hlen : ∀ j, (dDl j).length = chunk_len 5 (chunks_count 5) j := by
    intro j
    rw [hc1]
    simp [dDl]
  have h1 := transfer_retry_bound.1 5 0 attDlRetry dDl "x" "x"
    (by decide) (by decide) (by decide) rfl rfl rfl
    (fun j hj => by simp [attDlRetry, hj]) hlen
  have h2 := transfer_retry_bound.2.1 5 0 attDlFail dDl "x" "x" "x"
    (by decide) rfl rfl rfl (fun j hj => by simp [attDlFail, hj])
  have h3 := transfer_retry_bound.2.2.1 5 0 "u" "f" none contentW attUlRetry "r" "x" "x"
    (by decide) (by decide) rfl (by decide) rfl rfl rfl
    (fun j hj => by simp [attUlRetry, hj])
  have h4 := transfer_retry_bound.2.2.2 5 0 "u" "f" none contentW attUlFail "r" "x" "x" "x"
    (by decide) (by decide) rfl (by decide) rfl rfl rfl
    (fun j hj => by simp [attUlFail, hj])
  exact ⟨h1, ⟨h2.1, h2.2.2.1⟩, h3, ⟨h4.1, h4.2.2.1⟩⟩

/-- C8: pause requested between chunks stops the transfer before the next chunk. -/
theorem transfer_pause :
    (∀ (S i : Nat) (att : Nat → Nat → ChunkAttempt) (d : Nat → List Nat)
      (pausedAt : Nat → Bool), i < chunks_count S →
      (∀ j, j < i → pausedAt j = false) → pausedAt i = true →
      (∀ j k, att j k = ChunkAttempt.ok (d j)) →
      (download_start S none att pausedAt).1 = .ok () ∧
      (download_start S none att pausedAt).2.trace =
        (List.range' 0 i).flatMap (fun j =>
          [DlEvent.request j (j * CHUNK_SIZE) (chunk_range_end S (chunks_count S) j),
           DlEvent.write (j * CHUNK_SIZE) (d j).length]) ∧
      (∀ j, i ≤ j → reqCount (download_start S none att pausedAt).2.trace j = 0)) ∧
    (∀ (S i : Nat) (uid filename : String) (target : Option String) (content : List Nat)
      (att : Nat → Nat → UlAttempt) (pausedAt : Nat → Bool) (fr : String),
      0 < S → S ≤ 2 ^ 53 →
      content.length = S → i < chunks_count S →
      (∀ j, j < i → pausedAt j = false) → pausedAt i = true →
      (∀ j k, att j k = UlAttempt.ok) →
      (upload_start S uid filename target [] content att pausedAt (.ok fr)).1 = .ok () ∧
      (∀ j, i ≤ j → postCount (upload_start S uid filename target [] content att pausedAt
        (.ok fr)).2.trace j = 0) ∧
      finishCount (upload_start S uid filename target [] content att pausedAt
        (.ok fr)).2.trace = 0) := by
  refine ⟨?_, ?_⟩
  · intro S i att d pausedAt hi hplt hp hatt
    exact download_pause S i att d pausedAt hi hplt hp hatt
  · intro S i uid filename target content att pausedAt fr hS h53 hcl hi hplt hp hatt
    exact upload_pause S i uid filename target content att pausedAt fr
      hS h53 hcl hi hplt hp hatt

theorem transfer_pause_witness :
    ((download_start 5 none attOkEmpty allPause).1 = .ok () ∧
      reqCount (download_start 5 none attOkEmpty allPause).2.trace 0 = 0) ∧
    ((upload_start 5 "u" "f" none [] contentW attUlOk allPause (.ok "r")).1 = .ok () ∧
      postCount (upload_start 5 "u" "f" none [] contentW attUlOk allPause
        (.ok "r")).2.trace 0 = 0 ∧
      finishCount (upload_start 5 "u" "f" none [] contentW attUlOk allPause
        (.ok "r")).2.trace = 0) := by
  have h1 := transfer_pause.1 5 0 attOkEmpty (fun _ => []) allPause
    (by decide) (fun j hj => absurd hj (Nat.not_lt_zero j)) rfl (fun _ _ => rfl)
  have h2 := transfer_pause.2 5 0 "u" "f" none contentW attUlOk allPause "r"
    (by decide) (by decide) rfl (by decide)
    (fun j hj => absurd hj (Nat.not_lt_zero j)) rfl (fun _ _ => rfl)
  exact ⟨⟨h1.1, h1.2.2 0 (Nat.le_refl 0)⟩, ⟨h2.1, h2.2.1 0 (Nat.le_refl 0), h2.2.2⟩⟩

theorem upload_resume_skip_witness :
    (upload_start 5 "u" "f" none [0] contentW attUlOk noPause (.ok "r")).1 = .ok () ∧
    (upload_start 5 "u" "f" none [0] contentW attUlOk noPause
      (.ok "r")).2.status = .Completed ∧
    postCount (upload_start 5 "u" "f" none [0] contentW attUlOk noPause
      (.ok "r")).2.trace 0 = 0 ∧
    finishCount (upload_start 5 "u" "f" none [0] contentW attUlOk noPause
      (.ok "r")).2.trace = 1 := by
  have h := upload_resume_skip 5 "u" "f" none [0] contentW attUlOk "r"
    (by decide) (by decide) rfl (fun _ _ => rfl)
  exact ⟨h.1, h.2.1, h.2.2.2.1 0 rfl, h.2.2.2.2.2⟩

end CAMFC
